import Mathlib

/-!
# Watch-progress tracking of skill_sphere_lms

A shallow embedding of the watch-progress logic of the repository:

* `src/server/models/CourseProgress.js`: the two Mongoose schemas;
* `src/server/controllers/userController.js`: `updateUserCourseProgress` and
  `updateWatchProgress`;
* `src/client/src/pages/student/MyEnrollments.jsx`: `getCourseProgress`;
* `src/client/src/pages/student/Player.jsx`: the playback handlers.

Conventions of the embedding.

* JavaScript numbers are exact rationals (`ℚ`): watch times and durations are
  seconds, the threshold literal `0.9` is `9 / 10`. Rounding of IEEE doubles is
  not modelled. The sums and the quotient of `getCourseProgress` are modelled a
  second time on `JsNumber`, which has the overflow to `Infinity` and `NaN`.
* Identifiers are strings. The empty string is the falsy string of JavaScript
  and is what the `required: true` validator of a Mongoose `String` path
  rejects.
* The collection is the list of its documents in insertion order. `findOne`
  returns the first match; a document that `findOne` returned is written back
  by `save` at the place where it was found.
* A handler is a function from the store before the request to the store after
  it together with the JSON response.
-/

namespace SkillSphere

/-! ## Data model (`src/server/models/CourseProgress.js`) -/

/-- One element of `lectureProgress` (`lectureProgressSchema`). -/
structure LectureProgress where
  lectureId : String
  watchTime : ℚ
  totalDuration : ℚ
  completed : Bool
deriving DecidableEq, Repr

/-- One document of the `CourseProgress` collection (`courseProgressSchema`). -/
structure CourseProgress where
  userId : String
  courseId : String
  completed : Bool
  lectureCompleted : List String
  lectureProgress : List LectureProgress
deriving DecidableEq, Repr

/-- The collection, in insertion order. -/
abbrev Store := List CourseProgress

/-- The JSON object a handler answers with (`res.json`). -/
structure Response where
  success : Bool
  message : String
deriving DecidableEq, Repr

/-- The filter of `CourseProgress.findOne({ userId, courseId })`. -/
def matchesFilter (userId courseId : String) (doc : CourseProgress) : Bool :=
  doc.userId == userId && doc.courseId == courseId

/-- `CourseProgress.findOne({ userId, courseId })`: the first matching document. -/
def findOne (store : Store) (userId courseId : String) : Option CourseProgress :=
  store.find? (matchesFilter userId courseId)

/-- `CourseProgress.create(doc)`: the schema marks `userId` and `courseId` as
`required: true`, which for a `String` path rejects the empty string; a valid
document is appended to the collection. -/
def create (store : Store) (doc : CourseProgress) : Except String Store :=
  if doc.userId = "" then
    Except.error "CourseProgress validation failed: userId: Path userId is required."
  else if doc.courseId = "" then
    Except.error "CourseProgress validation failed: courseId: Path courseId is required."
  else
    Except.ok (store ++ [doc])

/-- `progressData.save()` for a document obtained from `findOne`: it is the first
match of its own `(userId, courseId)`, the handlers never assign these two
fields, so writing the document back replaces that first match. -/
def save : Store → CourseProgress → Store
  | [], _ => []
  | d :: ds, doc =>
      if matchesFilter doc.userId doc.courseId d then doc :: ds
      else d :: save ds doc

/-- `array.find((lp) => lp.lectureId === lectureId)` on `lectureProgress`. -/
def findLecture (entries : List LectureProgress) (lectureId : String) :
    Option LectureProgress :=
  entries.find? (fun lp => lp.lectureId == lectureId)

/-- Assignment through a reference returned by `find`: the first entry with the
given `lectureId` is the object that was found, and it is replaced by its
mutated state. -/
def writeLecture : List LectureProgress → String → LectureProgress → List LectureProgress
  | [], _, _ => []
  | e :: es, lectureId, lp =>
      if e.lectureId == lectureId then lp :: es
      else e :: writeLecture es lectureId lp

/-! ## `src/server/controllers/userController.js` -/

namespace userController

/-- Lines 141-156 of `updateUserCourseProgress`, on the loaded document: push
the lecture id and mark the matching `lectureProgress` entry when there is one. -/
def markCompleted (progressData : CourseProgress) (lectureId : String) : CourseProgress :=
  let pushed := { progressData with
    lectureCompleted := progressData.lectureCompleted ++ [lectureId] }
  match findLecture pushed.lectureProgress lectureId with
  | some lectureProgress =>
      { pushed with
        lectureProgress :=
          writeLecture pushed.lectureProgress lectureId
            { lectureProgress with completed := true } }
  | none => pushed

/-- Handler `updateUserCourseProgress` (manual completion), for the
authenticated `userId` and the request body `{ courseId, lectureId }`. -/
def updateUserCourseProgress (store : Store) (userId courseId lectureId : String) :
    Store × Response :=
  match findOne store userId courseId with
  | some progressData =>
      if progressData.lectureCompleted.contains lectureId then
        (store, ⟨true, "Lecture Already Completed"⟩)
      else
        (save store (markCompleted progressData lectureId), ⟨true, "Progress Updated"⟩)
  | none =>
      match create store
          { userId := userId, courseId := courseId, completed := false,
            lectureCompleted := [lectureId], lectureProgress := [] } with
      | Except.ok store1 => (store1, ⟨true, "Progress Updated"⟩)
      | Except.error message => (store, ⟨false, message⟩)

/-- The request body of `updateWatchProgress`; `watchTime` and `totalDuration`
may be left out of the body (`undefined`). -/
structure WatchBody where
  courseId : String
  lectureId : String
  watchTime : Option ℚ
  totalDuration : Option ℚ
deriving DecidableEq, Repr

/-- The value of `totalDuration || 0`. -/
def orZero (totalDuration : Option ℚ) : ℚ :=
  match totalDuration with
  | some d => d
  | none => 0

/-- The truthiness test `if (totalDuration)`: a number other than `0`. -/
def truthy (totalDuration : Option ℚ) : Bool :=
  match totalDuration with
  | some d => decide (d ≠ 0)
  | none => false

/-- Lines 208-211 on the object the local variable `lectureProgress` refers to. -/
def updateTimes (lectureProgress : LectureProgress) (watchTime : ℚ)
    (totalDuration : Option ℚ) : LectureProgress :=
  let lp := { lectureProgress with watchTime := max lectureProgress.watchTime watchTime }
  if truthy totalDuration then { lp with totalDuration := orZero totalDuration } else lp

/-- The condition of lines 215-218, with `completionThreshold = 0.9`. -/
def reachedThreshold (lectureProgress : LectureProgress) : Bool :=
  decide (lectureProgress.totalDuration > 0 ∧
    lectureProgress.watchTime / lectureProgress.totalDuration ≥ 9 / 10)

/-- Lines 213-225 on the object the local variable refers to: the `completed`
flag it ends with. -/
def autoComplete (lectureProgress : LectureProgress) : LectureProgress :=
  if reachedThreshold lectureProgress then { lectureProgress with completed := true }
  else lectureProgress

/-- Lines 221-224: add the id to `lectureCompleted` if not already there. -/
def pushIfAbsent (lectureCompleted : List String) (lectureId : String) : List String :=
  if lectureCompleted.contains lectureId then lectureCompleted
  else lectureCompleted ++ [lectureId]

/-- Lines 192-225 of `updateWatchProgress`, on the loaded or created document.

When `find` returns an entry, the local variable `lectureProgress` is that
subdocument and the assignments of lines 208-219 change the document.

When it returns nothing, the local variable is a fresh plain object.
`lectureProgress` is declared as `[lectureProgressSchema]`, a Mongoose document
array, and `push` on a document array casts a plain object into a new
subdocument built from the values the object has at that moment. The
assignments that follow the `push` change the plain object, not the
subdocument: the stored entry keeps `watchTime = 0`, `totalDuration =
totalDuration || 0` and `completed = false`, while the threshold test of line
215 reads the plain object. `lectureCompleted` belongs to the document itself,
so its `push` is stored. -/
def reconcile (progressData : CourseProgress) (lectureId : String) (watchTime : ℚ)
    (totalDuration : Option ℚ) : CourseProgress :=
  match findLecture progressData.lectureProgress lectureId with
  | some found =>
      let lectureProgress := updateTimes found watchTime totalDuration
      let stored := { progressData with
        lectureProgress :=
          writeLecture progressData.lectureProgress lectureId (autoComplete lectureProgress) }
      if reachedThreshold lectureProgress then
        { stored with lectureCompleted := pushIfAbsent stored.lectureCompleted lectureId }
      else stored
  | none =>
      let fresh : LectureProgress :=
        { lectureId := lectureId, watchTime := 0,
          totalDuration := orZero totalDuration, completed := false }
      let stored := { progressData with
        lectureProgress := progressData.lectureProgress ++ [fresh] }
      let lectureProgress := updateTimes fresh watchTime totalDuration
      if reachedThreshold lectureProgress then
        { stored with lectureCompleted := pushIfAbsent stored.lectureCompleted lectureId }
      else stored

/-- Handler `updateWatchProgress` (real-time watch sample), for the
authenticated `userId` and the request body. -/
def updateWatchProgress (store : Store) (userId : String) (body : WatchBody) :
    Store × Response :=
  match body.watchTime with
  | none => (store, ⟨false, "Invalid data"⟩)
  | some watchTime =>
      if body.courseId = "" ∨ body.lectureId = "" then
        (store, ⟨false, "Invalid data"⟩)
      else
        match findOne store userId body.courseId with
        | some progressData =>
            (save store (reconcile progressData body.lectureId watchTime body.totalDuration),
              ⟨true, "Watch progress updated"⟩)
        | none =>
            match create store
                { userId := userId, courseId := body.courseId, completed := false,
                  lectureCompleted := [], lectureProgress := [] } with
            | Except.ok store1 =>
                (save store1
                  (reconcile
                    { userId := userId, courseId := body.courseId, completed := false,
                      lectureCompleted := [], lectureProgress := [] }
                    body.lectureId watchTime body.totalDuration),
                  ⟨true, "Watch progress updated"⟩)
            | Except.error message => (store, ⟨false, message⟩)

end userController

/-- A request as the server receives it, with the authenticated `userId`:
`POST /update-watch-progress` or `POST /update-course-progress`
(`src/server/routes/userRoutes.js`). -/
inductive Request where
  | watch (userId : String) (body : userController.WatchBody)
  | manual (userId courseId lectureId : String)
deriving DecidableEq, Repr

/-- The store after the server has handled one request. -/
def serve (store : Store) : Request → Store
  | Request.watch userId body => (userController.updateWatchProgress store userId body).1
  | Request.manual userId courseId lectureId =>
      (userController.updateUserCourseProgress store userId courseId lectureId).1

/-- The store after the server has handled the requests one after the other. -/
def serveAll (store : Store) (requests : List Request) : Store :=
  requests.foldl serve store

/-! ## `src/client/src/pages/student/MyEnrollments.jsx` -/

/-- A lecture of the authored course content; `lectureDuration` is in minutes. -/
structure Lecture where
  lectureId : String
  lectureDuration : ℚ
deriving DecidableEq, Repr

/-- A chapter of the authored course content. -/
structure Chapter where
  chapterContent : List Lecture
deriving DecidableEq, Repr

/-- An enrolled course; a missing `courseContent` or `chapterContent` is the
empty list (`?.forEach` does nothing on it). -/
structure Course where
  courseContent : List Chapter
deriving DecidableEq, Repr

namespace MyEnrollments

/-- The two accumulators of `getCourseProgress`. -/
structure Totals where
  totalWatchTime : ℚ
  totalDuration : ℚ
deriving DecidableEq, Repr

/-- The value of `lectureProgress.totalDuration || (lecture.lectureDuration * 60)`. -/
def durationOr (stored authored : ℚ) : ℚ :=
  if stored ≠ 0 then stored else authored

/-- Body of the inner `forEach` of lines 45-57, when `progressData` is there. -/
def addTracked (progressData : CourseProgress) (acc : Totals) (lecture : Lecture) : Totals :=
  match findLecture progressData.lectureProgress lecture.lectureId with
  | some lectureProgress =>
      { totalWatchTime := acc.totalWatchTime + lectureProgress.watchTime,
        totalDuration :=
          acc.totalDuration +
            durationOr lectureProgress.totalDuration (lecture.lectureDuration * 60) }
  | none =>
      { acc with totalDuration := acc.totalDuration + lecture.lectureDuration * 60 }

/-- Body of the inner `forEach` of lines 62-64, when there is no `progressData`. -/
def addAuthored (acc : Totals) (lecture : Lecture) : Totals :=
  { acc with totalDuration := acc.totalDuration + lecture.lectureDuration * 60 }

/-- Lines 39-66: the totals after the two nested `forEach` loops. -/
def accumulate (course : Course) (progressData : Option CourseProgress) : Totals :=
  match progressData with
  | some pd =>
      course.courseContent.foldl
        (fun acc chapter => chapter.chapterContent.foldl (addTracked pd) acc) ⟨0, 0⟩
  | none =>
      course.courseContent.foldl
        (fun acc chapter => chapter.chapterContent.foldl addAuthored acc) ⟨0, 0⟩

/-- Lines 69-71: the percentage before clamping. -/
def rawPercent (totals : Totals) : ℚ :=
  if totals.totalDuration > 0 then totals.totalWatchTime / totals.totalDuration * 100 else 0

/-- The object `getCourseProgress` computes for one course. -/
structure CourseProgressView where
  totalLectures : Nat
  lectureCompleted : Nat
  progressPercent : ℚ
deriving DecidableEq, Repr

/-- The per-course body of `getCourseProgress` (lines 33-77), for the
`progressData` the server answered with. `calculateNoOfLectures` comes from
`AppContext`, which is outside the sources at hand, and is a parameter. -/
def getCourseProgress (calculateNoOfLectures : Course → Nat) (course : Course)
    (progressData : Option CourseProgress) : CourseProgressView :=
  { totalLectures := calculateNoOfLectures course,
    lectureCompleted :=
      match progressData with
      | some pd => pd.lectureCompleted.length
      | none => 0,
    progressPercent := min 100 (max 0 (rawPercent (accumulate course progressData))) }

/-- All lectures of a course, in the order the nested loops visit them. -/
def lecturesOf (course : Course) : List Lecture :=
  course.courseContent.flatMap (fun chapter => chapter.chapterContent)

/-- The entry of a lecture in the progress record, if the record and the entry exist. -/
def entryOf (progressData : Option CourseProgress) (lecture : Lecture) :
    Option LectureProgress :=
  match progressData with
  | some pd => findLecture pd.lectureProgress lecture.lectureId
  | none => none

/-- The sum `W` of the specification: the stored watch time of the lectures
that have an entry. -/
def specWatchTime (course : Course) (progressData : Option CourseProgress) : ℚ :=
  ((lecturesOf course).map (fun lecture =>
    match entryOf progressData lecture with
    | some lp => lp.watchTime
    | none => 0)).sum

/-- The sum `D` of the specification: the stored `totalDuration` of a lecture
that has an entry, the authored duration in seconds of one that has none. -/
def specDuration (course : Course) (progressData : Option CourseProgress) : ℚ :=
  ((lecturesOf course).map (fun lecture =>
    match entryOf progressData lecture with
    | some lp => lp.totalDuration
    | none => lecture.lectureDuration * 60)).sum

/-- The percentage of the specification: `clamp(100 * W / D, 0, 100)`. -/
def specPercent (course : Course) (progressData : Option CourseProgress) : ℚ :=
  min 100 (max 0 (100 * specWatchTime course progressData / specDuration course progressData))

/-- The sum `D` as the code forms it: a stored `totalDuration` of `0` falls
back to the authored duration. -/
def fallbackDuration (course : Course) (progressData : Option CourseProgress) : ℚ :=
  ((lecturesOf course).map (fun lecture =>
    match entryOf progressData lecture with
    | some lp => if lp.totalDuration ≠ 0 then lp.totalDuration else lecture.lectureDuration * 60
    | none => lecture.lectureDuration * 60)).sum

/-- The percentage with the fallback duration, `0` when that duration is not positive. -/
def fallbackPercent (course : Course) (progressData : Option CourseProgress) : ℚ :=
  if fallbackDuration course progressData > 0 then
    min 100 (max 0 (100 * specWatchTime course progressData / fallbackDuration course progressData))
  else 0

end MyEnrollments

/-! ## `src/client/src/pages/student/Player.jsx` -/

namespace Player

/-- The part of the `playerData` state the handlers read. -/
structure PlayerData where
  lectureId : String
deriving DecidableEq, Repr

/-- What a playback surface reports: `currentTime` and `duration` of the
`<video>` element, `getCurrentTime()` and `getDuration()` of the YouTube player. -/
structure Playback where
  currentTime : ℚ
  duration : ℚ
deriving DecidableEq, Repr

/-- `Math.floor`. -/
def floor (x : ℚ) : ℚ := ((Rat.floor x : ℤ) : ℚ)

/-- Client function `updateWatchProgress(currentTime, totalDuration)`: the
requests it posts for the signed-in `userId`. -/
def updateWatchProgress (userId courseId : String) (playerData : Option PlayerData)
    (currentTime totalDuration : ℚ) : List Request :=
  match playerData with
  | none => []
  | some pd =>
      if pd.lectureId = "" then []
      else
        [Request.watch userId
          { courseId := courseId, lectureId := pd.lectureId,
            watchTime := some (floor currentTime),
            totalDuration := some (floor totalDuration) }]

/-- Client function `markLectureAsCompleted(lectureId)`: the request it posts. -/
def markLectureAsCompleted (userId courseId lectureId : String) : List Request :=
  [Request.manual userId courseId lectureId]

/-- Handler `handleVideoEnded` of the `<video>` element: the requests it posts. -/
def handleVideoEnded (userId courseId : String) (playerData : Option PlayerData)
    (video : Playback) : List Request :=
  match playerData with
  | some pd =>
      updateWatchProgress userId courseId playerData (floor video.currentTime)
          (floor video.duration)
        ++ markLectureAsCompleted userId courseId pd.lectureId
  | none => []

/-- Handler `handlePlayerStateChange` of the YouTube player, for the event code
`data` (`0` is "ended") and the `youtubePlayer` state: the requests it posts. -/
def handlePlayerStateChange (userId courseId : String) (playerData : Option PlayerData)
    (youtubePlayer : Option Playback) (data : ℤ) : List Request :=
  if data = 0 then
    match youtubePlayer with
    | some player => updateWatchProgress userId courseId playerData player.currentTime player.duration
    | none => []
  else []

/-- The test of lines 217 and 261 on the entry that `find` returned. -/
def shouldResume (lectureProgress : Option LectureProgress) : Option ℚ :=
  match lectureProgress with
  | some lp =>
      if lp.watchTime > 0 ∧ lp.watchTime < lp.totalDuration then some lp.watchTime else none
  | none => none

/-- Handler `handleVideoLoadedMetadata` of the `<video>` element: the position
assigned to `video.currentTime`, if any. -/
def handleVideoLoadedMetadata (progressData : Option CourseProgress)
    (playerData : Option PlayerData) : Option ℚ :=
  match progressData, playerData with
  | some progress, some pd => shouldResume (findLecture progress.lectureProgress pd.lectureId)
  | _, _ => none

/-- Handler `handlePlayerReady` of the YouTube player: the position passed to
`seekTo` by the delayed callback, if any. -/
def handlePlayerReady (progressData : Option CourseProgress)
    (playerData : Option PlayerData) : Option ℚ :=
  match progressData, playerData with
  | some progress, some pd => shouldResume (findLecture progress.lectureProgress pd.lectureId)
  | _, _ => none

end Player

/-! ## Observations on a store -/

/-- The `lectureProgress` entry stored for a lecture of a `(userId, courseId)`. -/
def lectureEntry (store : Store) (userId courseId lectureId : String) :
    Option LectureProgress :=
  match findOne store userId courseId with
  | some doc => findLecture doc.lectureProgress lectureId
  | none => none

/-- The `lectureCompleted` array stored for a `(userId, courseId)`, empty when
there is no document. -/
def lectureCompletedOf (store : Store) (userId courseId : String) : List String :=
  match findOne store userId courseId with
  | some doc => doc.lectureCompleted
  | none => []

end SkillSphere

/-! ## Auxiliary definitions for the statements -/

namespace SkillSphere

/-- The document `updateWatchProgress` creates when `findOne` finds none. -/
def blankRecord (userId courseId : String) : CourseProgress :=
  { userId := userId, courseId := courseId, completed := false,
    lectureCompleted := [], lectureProgress := [] }

/-- The plain object of lines 198-203. -/
def freshEntry (lectureId : String) (totalDuration : Option ℚ) : LectureProgress :=
  { lectureId := lectureId, watchTime := 0,
    totalDuration := userController.orZero totalDuration, completed := false }

/-- The object the local variable `lectureProgress` of `updateWatchProgress`
refers to at line 207: the entry found, or the fresh plain object. -/
def localEntry (progressData : CourseProgress) (lectureId : String)
    (totalDuration : Option ℚ) : LectureProgress :=
  match findLecture progressData.lectureProgress lectureId with
  | some found => found
  | none => freshEntry lectureId totalDuration

/-- The document loaded or created at lines 181-190. -/
def loadedRecord (store : Store) (userId courseId : String) : CourseProgress :=
  match findOne store userId courseId with
  | some progressData => progressData
  | none => blankRecord userId courseId

/-- The document `updateUserCourseProgress` leaves for `(userId, courseId)`:
the loaded one unchanged when the lecture is already in `lectureCompleted`, the
loaded one with the lecture marked, or the one it creates. -/
def manualRecord (store : Store) (userId courseId lectureId : String) : CourseProgress :=
  match findOne store userId courseId with
  | some progressData =>
      if progressData.lectureCompleted.contains lectureId then progressData
      else userController.markCompleted progressData lectureId
  | none =>
      { userId := userId, courseId := courseId, completed := false,
        lectureCompleted := [lectureId], lectureProgress := [] }

/-- Completion is kept from a document to a later state of it: every entry
with `completed = true` still exists with `completed = true`, and every id of
`lectureCompleted` is still there. -/
def KeepsCompletion (before after : CourseProgress) : Prop :=
  (∀ l e, findLecture before.lectureProgress l = some e → e.completed = true →
    ∃ e2, findLecture after.lectureProgress l = some e2 ∧ e2.completed = true) ∧
  (∀ l, l ∈ before.lectureCompleted → l ∈ after.lectureCompleted)

/-- The entry of the active lecture in the locally held `progressData`. -/
def activeEntry (progressData : Option CourseProgress) (playerData : Player.PlayerData) :
    Option LectureProgress :=
  match progressData with
  | some progress => findLecture progress.lectureProgress playerData.lectureId
  | none => none

/-- A store with one record whose lecture `l` has been watched for 80 of 100
seconds. -/
def sampleStore : Store :=
  [{ userId := "u", courseId := "c", completed := false, lectureCompleted := [],
     lectureProgress := [{ lectureId := "l", watchTime := 80, totalDuration := 100,
                           completed := false }] }]

/-- A watch sample for lecture `l` of course `c`: 95 of 100 seconds. -/
def sampleBody : userController.WatchBody :=
  { courseId := "c", lectureId := "l", watchTime := some 95, totalDuration := some 100 }

/-- A course of one chapter with two lectures of 10 minutes. -/
def sampleCourse : Course :=
  { courseContent := [{ chapterContent := [⟨"a", 10⟩, ⟨"b", 10⟩] }] }

/-- A record whose entry for lecture `a` has a watch time but no known duration. -/
def sampleRecord : CourseProgress :=
  { userId := "u", courseId := "c", completed := false, lectureCompleted := [],
    lectureProgress := [{ lectureId := "a", watchTime := 300, totalDuration := 0,
                          completed := false }] }

/-- The document `updateUserCourseProgress` creates when `findOne` finds none. -/
def createdByManual (userId courseId lectureId : String) : CourseProgress :=
  { userId := userId, courseId := courseId, completed := false,
    lectureCompleted := [lectureId], lectureProgress := [] }

/-- A watch request that passes the check of line 177 and whose `userId` is one
the schema accepts. -/
def ValidSample (userId : String) (body : userController.WatchBody) : Prop :=
  userId ≠ "" ∧ body.courseId ≠ "" ∧ body.lectureId ≠ "" ∧ body.watchTime ≠ none

/-- The `completed` flag of a lecture: `false` when there is no entry. -/
def completedFlag (store : Store) (userId courseId lectureId : String) : Bool :=
  match lectureEntry store userId courseId lectureId with
  | some lp => lp.completed
  | none => false

end SkillSphere

/-! ## The request body as JSON, and the store operations of a request -/

namespace SkillSphere

/-- A field of the JSON body that the handler uses as a number: left out of the
body (`undefined` after destructuring), `null`, or a number. Strings, booleans,
arrays and objects in that place are not covered. -/
inductive JsonNumber where
  | undefined
  | null
  | number (value : ℚ)
deriving DecidableEq, Repr

/-- The JSON body of `POST /update-watch-progress` before destructuring; an
identifier is `none` when the key is missing. -/
structure WatchRequestBody where
  courseId : Option String
  lectureId : Option String
  watchTime : JsonNumber
  totalDuration : JsonNumber
deriving DecidableEq, Repr

/-- An identifier of the body as the handler sees it: a missing one is falsy
like the empty string, and `!courseId`, `!lectureId` are its only uses before
line 181. -/
def idOrEmpty (identifier : Option String) : String :=
  match identifier with
  | some s => s
  | none => ""

/-- The `watchTime` of the body as the handler uses it: `undefined` is what
line 177 tests for; `null` passes that test and `Math.max(x, null)` is
`Math.max(x, 0)`. -/
def asWatchTime (watchTime : JsonNumber) : Option ℚ :=
  match watchTime with
  | JsonNumber.undefined => none
  | JsonNumber.null => some 0
  | JsonNumber.number q => some q

/-- The `totalDuration` of the body as the handler uses it: `undefined` and
`null` are both falsy in `totalDuration || 0` and `if (totalDuration)`. -/
def asDuration (totalDuration : JsonNumber) : Option ℚ :=
  match totalDuration with
  | JsonNumber.undefined => none
  | JsonNumber.null => none
  | JsonNumber.number q => some q

/-- Line 175: the destructured body. -/
def destructure (raw : WatchRequestBody) : userController.WatchBody :=
  { courseId := idOrEmpty raw.courseId, lectureId := idOrEmpty raw.lectureId,
    watchTime := asWatchTime raw.watchTime, totalDuration := asDuration raw.totalDuration }

/-- Handler `updateWatchProgress` on the JSON body of the request. -/
def handleWatchRequest (store : Store) (userId : String) (raw : WatchRequestBody) :
    Store × Response :=
  userController.updateWatchProgress store userId (destructure raw)

/-- An access to the collection. -/
inductive StoreOp where
  | findOne (userId courseId : String)
  | create (doc : CourseProgress)
  | save (doc : CourseProgress)
deriving DecidableEq, Repr

/-- The accesses to the collection that `updateWatchProgress` performs, in
order: none when line 177 rejects the body, else `findOne` (line 181), `create`
(line 184) when nothing was found, and `save` (line 227) unless `create` threw. -/
def updateWatchProgressOps (store : Store) (userId : String)
    (body : userController.WatchBody) : List StoreOp :=
  match body.watchTime with
  | none => []
  | some watchTime =>
      if body.courseId = "" ∨ body.lectureId = "" then []
      else
        match findOne store userId body.courseId with
        | some progressData =>
            [StoreOp.findOne userId body.courseId,
              StoreOp.save
                (userController.reconcile progressData body.lectureId watchTime
                  body.totalDuration)]
        | none =>
            match create store (blankRecord userId body.courseId) with
            | Except.ok _ =>
                [StoreOp.findOne userId body.courseId,
                  StoreOp.create (blankRecord userId body.courseId),
                  StoreOp.save
                    (userController.reconcile (blankRecord userId body.courseId)
                      body.lectureId watchTime body.totalDuration)]
            | Except.error _ =>
                [StoreOp.findOne userId body.courseId,
                  StoreOp.create (blankRecord userId body.courseId)]

/-- The accesses to the collection of `updateWatchProgress` on a JSON body. -/
def handleWatchRequestOps (store : Store) (userId : String) (raw : WatchRequestBody) :
    List StoreOp :=
  updateWatchProgressOps store userId (destructure raw)

end SkillSphere

namespace SkillSphere

/-- The effect of one access on the collection: `findOne` reads, `create`
appends a valid document, `save` writes a loaded document back. -/
def applyOp (store : Store) (op : StoreOp) : Store :=
  match op with
  | StoreOp.findOne _ _ => store
  | StoreOp.create doc =>
      match create store doc with
      | Except.ok store1 => store1
      | Except.error _ => store
  | StoreOp.save doc => save store doc

end SkillSphere

/-! ## The response objects, and store operations that can fail -/

namespace SkillSphere

/-- The object a handler passes to `res.json`, key by key: a key that the
object does not have is `none`; `progressData` present but `null` is
`some none`. -/
structure ResponseBody where
  success : Bool
  message : Option String
  progressData : Option (Option CourseProgress)
deriving DecidableEq, Repr

/-- The objects that `updateWatchProgress` and `updateUserCourseProgress` pass
to `res.json` (lines 143, 165, 167, 178, 228, 230) have the keys `success` and
`message` and no other. -/
def Response.toBody (r : Response) : ResponseBody :=
  { success := r.success, message := some r.message, progressData := none }

namespace userController

/-- Handler `getUserCourseProgress` (lines 235-245): the stored record, or
`null` when there is none. -/
def getUserCourseProgress (store : Store) (userId courseId : String) : ResponseBody :=
  { success := true, message := none, progressData := some (findOne store userId courseId) }

end userController

/-- The three operations the handlers perform on the collection. -/
inductive StoreOpKind where
  | findOne
  | create
  | save
deriving DecidableEq, Repr

/-- The kind of an access to the collection. -/
def StoreOp.kind (op : StoreOp) : StoreOpKind :=
  match op with
  | StoreOp.findOne _ _ => StoreOpKind.findOne
  | StoreOp.create _ => StoreOpKind.create
  | StoreOp.save _ => StoreOpKind.save

/-- A store failure: the operation that rejects when the handler reaches it,
and the `error.message` it rejects with. -/
structure Fault where
  op : StoreOpKind
  message : String
deriving DecidableEq, Repr

/-- The error message with which an operation rejects under a fault, if it does. -/
def throwsAt (fault : Option Fault) (op : StoreOpKind) : Option String :=
  match fault with
  | some f => if f.op = op then some f.message else none
  | none => none

namespace userController

/-- Handler `updateWatchProgress` with store operations that may reject: a
rejected `await` jumps to the `catch` of line 229, which answers
`{ success: false, message: error.message }`; what was written before stays
written. -/
def updateWatchProgressFallible (fault : Option Fault) (store : Store) (userId : String)
    (body : WatchBody) : Store × Response :=
  match body.watchTime with
  | none => (store, ⟨false, "Invalid data"⟩)
  | some watchTime =>
      if body.courseId = "" ∨ body.lectureId = "" then
        (store, ⟨false, "Invalid data"⟩)
      else
        match throwsAt fault StoreOpKind.findOne with
        | some message => (store, ⟨false, message⟩)
        | none =>
            match findOne store userId body.courseId with
            | some progressData =>
                match throwsAt fault StoreOpKind.save with
                | some message => (store, ⟨false, message⟩)
                | none =>
                    (save store
                      (reconcile progressData body.lectureId watchTime body.totalDuration),
                      ⟨true, "Watch progress updated"⟩)
            | none =>
                match throwsAt fault StoreOpKind.create with
                | some message => (store, ⟨false, message⟩)
                | none =>
                    match create store (blankRecord userId body.courseId) with
                    | Except.ok store1 =>
                        match throwsAt fault StoreOpKind.save with
                        | some message => (store1, ⟨false, message⟩)
                        | none =>
                            (save store1
                              (reconcile (blankRecord userId body.courseId) body.lectureId
                                watchTime body.totalDuration),
                              ⟨true, "Watch progress updated"⟩)
                    | Except.error message => (store, ⟨false, message⟩)

/-- Handler `updateUserCourseProgress` with store operations that may reject
(`catch` of line 166). -/
def updateUserCourseProgressFallible (fault : Option Fault) (store : Store)
    (userId courseId lectureId : String) : Store × Response :=
  match throwsAt fault StoreOpKind.findOne with
  | some message => (store, ⟨false, message⟩)
  | none =>
      match findOne store userId courseId with
      | some progressData =>
          if progressData.lectureCompleted.contains lectureId then
            (store, ⟨true, "Lecture Already Completed"⟩)
          else
            match throwsAt fault StoreOpKind.save with
            | some message => (store, ⟨false, message⟩)
            | none =>
                (save store (markCompleted progressData lectureId),
                  ⟨true, "Progress Updated"⟩)
      | none =>
          match throwsAt fault StoreOpKind.create with
          | some message => (store, ⟨false, message⟩)
          | none =>
              match create store (createdByManual userId courseId lectureId) with
              | Except.ok store1 => (store1, ⟨true, "Progress Updated"⟩)
              | Except.error message => (store, ⟨false, message⟩)

end userController

/-- The accesses to the collection that `updateUserCourseProgress` performs, in
order: `findOne` (line 139), then `save` (line 156) or `create` (line 158),
or nothing more when the lecture is already listed. -/
def updateUserCourseProgressOps (store : Store) (userId courseId lectureId : String) :
    List StoreOp :=
  match findOne store userId courseId with
  | some progressData =>
      if progressData.lectureCompleted.contains lectureId then
        [StoreOp.findOne userId courseId]
      else
        [StoreOp.findOne userId courseId,
          StoreOp.save (userController.markCompleted progressData lectureId)]
  | none =>
      [StoreOp.findOne userId courseId,
        StoreOp.create (createdByManual userId courseId lectureId)]

/-- One request handled with store operations that may reject. -/
def serveFallible (fault : Option Fault) (store : Store) : Request → Store × Response
  | Request.watch userId body =>
      userController.updateWatchProgressFallible fault store userId body
  | Request.manual userId courseId lectureId =>
      userController.updateUserCourseProgressFallible fault store userId courseId lectureId

/-- The accesses to the collection that a request performs when none rejects. -/
def requestOps (store : Store) : Request → List StoreOp
  | Request.watch userId body => updateWatchProgressOps store userId body
  | Request.manual userId courseId lectureId =>
      updateUserCourseProgressOps store userId courseId lectureId

end SkillSphere

/-! ## `Player.jsx`: periodic sampling, player errors and the sampling timer -/

namespace SkillSphere

namespace Player

/-- The `<video>` element as `handleVideoTimeUpdate` reads it. -/
structure VideoElement where
  readyState : Nat
  currentTime : ℚ
  duration : ℚ
deriving DecidableEq, Repr

/-- Handler `handleVideoTimeUpdate` of the `<video>` element (lines 224-237):
the requests it posts for one `timeupdate` event. -/
def handleVideoTimeUpdate (userId courseId : String) (playerData : Option PlayerData)
    (video : VideoElement) : List Request :=
  if video.readyState ≥ 2 then
    if Rat.floor video.currentTime > 0 ∧ Rat.floor video.currentTime % 5 = 0 then
      updateWatchProgress userId courseId playerData (floor video.currentTime)
        (floor video.duration)
    else []
  else []

/-- A `timeupdate` event with the wall-clock time, in seconds, at which it fires. -/
structure TimedUpdate where
  time : ℚ
  video : VideoElement
deriving DecidableEq, Repr

/-- The wall-clock times of the events of a sequence that post a watch sample. -/
def reportTimes (userId courseId : String) (playerData : Option PlayerData)
    (events : List TimedUpdate) : List ℚ :=
  (events.filter
    (fun e => decide (handleVideoTimeUpdate userId courseId playerData e.video ≠ []))).map
    (fun e => e.time)

/-- The YouTube player as the handlers query it: each accessor returns a number
or throws an error. -/
structure YouTubePlayer where
  getCurrentTime : Except String ℚ
  getDuration : Except String ℚ

/-- What running a handler comes to: the requests it posted, and the error it
let propagate, if any. -/
structure Outcome where
  requests : List Request
  thrown : Option String
deriving DecidableEq, Repr

/-- The callback that `handlePlayerReady` passes to `setInterval` (lines
273-285): the accessors are called inside `try`, an error is logged. -/
def sampleTick (userId courseId : String) (playerData : Option PlayerData)
    (player : YouTubePlayer) : Outcome :=
  match player.getCurrentTime with
  | Except.error _ => { requests := [], thrown := none }
  | Except.ok currentTime =>
      match player.getDuration with
      | Except.error _ => { requests := [], thrown := none }
      | Except.ok totalDuration =>
          if currentTime > 0 ∧ totalDuration > 0 then
            { requests := updateWatchProgress userId courseId playerData currentTime
                totalDuration,
              thrown := none }
          else { requests := [], thrown := none }

/-- Handler `handlePlayerStateChange` (lines 288-297) on a player whose
accessors may throw: the accessors are called outside any `try`. -/
def handlePlayerStateChangeOn (userId courseId : String) (playerData : Option PlayerData)
    (youtubePlayer : Option YouTubePlayer) (data : ℤ) : Outcome :=
  if data = 0 then
    match youtubePlayer with
    | some player =>
        match player.getCurrentTime with
        | Except.error e => { requests := [], thrown := some e }
        | Except.ok currentTime =>
            match player.getDuration with
            | Except.error e => { requests := [], thrown := some e }
            | Except.ok totalDuration =>
                { requests := updateWatchProgress userId courseId playerData currentTime
                    totalDuration,
                  thrown := none }
    | none => { requests := [], thrown := none }
  else { requests := [], thrown := none }

/-- The sampling timers of one player instance: the ref `progressUpdateInterval`
(`null` or a timer id), the intervals that are set and not cleared, and the id
the next `setInterval` returns (timer ids are positive integers). -/
structure TimerState where
  progressUpdateInterval : Option Nat
  live : List Nat
  nextId : Nat
deriving DecidableEq, Repr

/-- The player instance when it mounts: `useRef(null)`, no interval set. -/
def TimerState.initial : TimerState :=
  { progressUpdateInterval := none, live := [], nextId := 1 }

/-- `clearInterval(id)`. -/
def clearInterval (live : List Nat) (id : Nat) : List Nat :=
  live.filter (fun t => decide (t ≠ id))

/-- Lines 269-271 and 309-311: `if (ref.current) clearInterval(ref.current)`. -/
def clearCurrent (s : TimerState) : List Nat :=
  match s.progressUpdateInterval with
  | some id => if id ≠ 0 then clearInterval s.live id else s.live
  | none => s.live

/-- The timer part of `handlePlayerReady` (lines 268-285): clear the interval of
the ref, set a new one and keep its id in the ref. -/
def playerReady (s : TimerState) : TimerState :=
  { progressUpdateInterval := some s.nextId,
    live := clearCurrent s ++ [s.nextId],
    nextId := s.nextId + 1 }

/-- The cleanup of the effect on `[playerData]` (lines 307-313), run when the
lecture is switched and on unmount. -/
def lectureSwitched (s : TimerState) : TimerState :=
  { s with live := clearCurrent s }

/-- The two steps of the timer state. -/
inductive TimerStep where
  | playerReady
  | lectureSwitched
deriving DecidableEq, Repr

/-- One step of the timer state. -/
def TimerState.step (s : TimerState) : TimerStep → TimerState
  | TimerStep.playerReady => playerReady s
  | TimerStep.lectureSwitched => lectureSwitched s

/-- The timer state after a sequence of steps. -/
def TimerState.run (s : TimerState) (steps : List TimerStep) : TimerState :=
  steps.foldl TimerState.step s

/-- The state of the timers is coherent: the next id is positive, and either no
interval is live, or exactly the one whose id the ref holds. -/
def TimerState.Coherent (s : TimerState) : Prop :=
  0 < s.nextId ∧
  (∀ id, s.progressUpdateInterval = some id → 0 < id ∧ id < s.nextId) ∧
  (s.live = [] ∨ ∃ id, s.progressUpdateInterval = some id ∧ s.live = [id])

end Player

end SkillSphere

/-! ## `src/server/controllers/videoController.js` and the video type of `Player.jsx` -/

namespace SkillSphere

/-- `String.prototype.startsWith`. -/
def jsStartsWith (s p : String) : Bool :=
  p.data.isPrefixOf s.data

/-- `String.prototype.includes`. -/
def jsIncludes (s p : String) : Bool :=
  decide (p.data <:+: s.data)

namespace videoController

/-- A document of the `User` collection, as far as the video handlers read it.
The `User` model is outside the sources at hand. -/
structure User where
  id : String
  enrolledCourses : List String
deriving DecidableEq, Repr

/-- `User.findById(userId)`. -/
def findById (users : List User) (userId : String) : Option User :=
  users.find? (fun user => user.id == userId)

/-- The body of `POST /api/video/batch-stream-urls`: `fileKeys` is `none` when
it is missing or not an array; a missing `courseId` is the empty string. -/
structure BatchBody where
  fileKeys : Option (List String)
  courseId : String
deriving DecidableEq, Repr

/-- The object `getBatchVideoStreamUrlsController` answers with; `urls` maps a
file key to its presigned URL. -/
structure BatchResponse where
  success : Bool
  message : Option String
  urls : Option (List (String × String))
deriving DecidableEq, Repr

/-- `getBatchVideoStreamUrls` of `configs/s3.js`: an object with one key per
distinct file key. The signing of a key is a parameter. -/
def getBatchVideoStreamUrls (presign : String → String) (fileKeys : List String) :
    List (String × String) :=
  fileKeys.eraseDups.map (fun fileKey => (fileKey, presign fileKey))

/-- Handler `getBatchVideoStreamUrlsController` (lines 157-197), for the user
id that `getAuthUserId` returns (`none` for `null`). -/
def getBatchVideoStreamUrlsController (users : List User) (presign : String → String)
    (userId : Option String) (body : BatchBody) : BatchResponse :=
  match body.fileKeys with
  | none => ⟨false, some "fileKeys array is required", none⟩
  | some fileKeys =>
      if fileKeys.length = 0 then ⟨false, some "fileKeys array is required", none⟩
      else if body.courseId = "" then ⟨false, some "courseId is required", none⟩
      else
        match userId with
        | some uid =>
            if uid ≠ "" then
              match findById users uid with
              | some user =>
                  if user.enrolledCourses.contains body.courseId then
                    ⟨true, none, some (getBatchVideoStreamUrls presign fileKeys)⟩
                  else ⟨false, some "You must be enrolled to access these videos", none⟩
              | none => ⟨false, some "You must be enrolled to access these videos", none⟩
            else ⟨true, none, some (getBatchVideoStreamUrls presign fileKeys)⟩
        | none => ⟨true, none, some (getBatchVideoStreamUrls presign fileKeys)⟩

/-- The list `allowedTypes` of `getVideoUploadUrlController`. -/
def allowedTypes : List String :=
  ["video/mp4", "video/webm", "video/quicktime", "video/x-msvideo", "video/x-matroska"]

/-- The body of `POST /api/video/upload-url`; a missing field is the empty
string. -/
structure UploadBody where
  fileName : String
  contentType : String
  courseId : String
  chapterId : String
  lectureId : String
deriving DecidableEq, Repr

/-- `fileName.split(".").pop()`: what follows the last dot, the whole name when
it has no dot. -/
def fileExtension (fileName : String) : String :=
  String.mk (fileName.data.reverse.takeWhile (fun ch => decide (ch ≠ '.'))).reverse

/-- The template literal of line 69, for the value `timestamp` of `Date.now()`. -/
def fileKeyOf (timestamp : Nat) (body : UploadBody) : String :=
  "courses/" ++ body.courseId ++ "/chapters/" ++
    (if body.chapterId = "" then "default" else body.chapterId) ++ "/lectures/" ++
    (if body.lectureId = "" then toString timestamp else body.lectureId) ++ "." ++
    fileExtension body.fileName

/-- The object `getVideoUploadUrlController` answers with. -/
structure UploadResponse where
  success : Bool
  message : Option String
  uploadUrl : Option String
  fileKey : Option String
deriving DecidableEq, Repr

/-- Handler `getVideoUploadUrlController` (lines 27-82). `ownsCourse courseId
educatorId` tells whether `Course.findOne({ _id: courseId, educator:
educatorId })` finds a course; the `Course` model is outside the sources at
hand. `presignUpload` is `getVideoUploadUrl` of `configs/s3.js`. -/
def getVideoUploadUrlController (ownsCourse : String → Option String → Bool)
    (presignUpload : String → String → String) (timestamp : Nat)
    (educatorId : Option String) (body : UploadBody) : UploadResponse :=
  if body.fileName = "" ∨ body.contentType = "" ∨ body.courseId = "" then
    ⟨false, some "fileName, contentType, and courseId are required", none, none⟩
  else if ¬ allowedTypes.contains body.contentType then
    ⟨false, some "Invalid video type. Allowed: MP4, WebM, MOV, AVI, MKV", none, none⟩
  else if body.courseId ≠ "temp" ∧ ownsCourse body.courseId educatorId = false then
    ⟨false, some "Course not found or unauthorized", none, none⟩
  else
    ⟨true, none, some (presignUpload (fileKeyOf timestamp body) body.contentType),
      some (fileKeyOf timestamp body)⟩

end videoController

namespace Player

/-- Helper `isYouTubeUrl` (lines 52-59). -/
def isYouTubeUrl (url : String) : Bool :=
  if url = "" then false
  else jsIncludes url "youtube.com" || jsIncludes url "youtu.be" || jsIncludes url "youtube"

/-- Helper `isS3Video` (lines 62-65). -/
def isS3Video (url : String) : Bool :=
  if url = "" then false
  else jsStartsWith url "courses/" && !jsIncludes url "http"

/-- The `videoType` that `playLecture` gives to `playerData`. -/
inductive VideoType where
  | s3
  | youtube
  | url
deriving DecidableEq, Repr

/-- The branch `playLecture` takes for a `lectureUrl` (lines 364-411): none
when the link is missing, else the S3 stream-url path, the YouTube path or the
plain-URL path. -/
def videoTypeOf (lectureUrl : String) : Option VideoType :=
  if lectureUrl = "" then none
  else if isS3Video lectureUrl then some VideoType.s3
  else if isYouTubeUrl lectureUrl then some VideoType.youtube
  else some VideoType.url

end Player

end SkillSphere

namespace SkillSphere

/-- A stand-in for the presigning of a file key by the S3 client. -/
def samplePresign (fileKey : String) : String :=
  "https://bucket.s3.amazonaws.com/" ++ fileKey ++ "?X-Amz-Signature=0"

/-- A stand-in for the presigning of an upload by the S3 client. -/
def samplePresignUpload (fileKey contentType : String) : String :=
  "https://bucket.s3.amazonaws.com/" ++ fileKey ++ "?type=" ++ contentType

end SkillSphere

/-! ## `getCourseProgress` with the overflow of JavaScript numbers -/

namespace SkillSphere

/-- A JavaScript number as arithmetic produces it: a finite value, `Infinity`,
`-Infinity` or `NaN`. A finite value is kept exact; the rounding of a result
that stays in range is not modelled, its overflow is. The zero of the finite
values has no sign. -/
inductive JsNumber where
  | finite (value : ℚ)
  | posInfinity
  | negInfinity
  | nan
deriving DecidableEq, Repr

namespace JsNumber

/-- The least magnitude that rounds to `Infinity`: `Number.MAX_VALUE` plus half
the gap to the next power of two, `2 ^ 1024 - 2 ^ 970`. -/
def overflowThreshold : ℚ := (((2 ^ 1024 - 2 ^ 970 : ℕ) : ℤ) : ℚ)

/-- The number an exact result becomes: `Infinity` or `-Infinity` when its
magnitude reaches the overflow threshold. -/
def ofExact (q : ℚ) : JsNumber :=
  if q ≥ overflowThreshold then posInfinity
  else if q ≤ -overflowThreshold then negInfinity
  else finite q

/-- The operator `+`. -/
def add (x y : JsNumber) : JsNumber :=
  match x, y with
  | finite a, finite b => ofExact (a + b)
  | nan, _ => nan
  | _, nan => nan
  | posInfinity, negInfinity => nan
  | negInfinity, posInfinity => nan
  | posInfinity, _ => posInfinity
  | _, posInfinity => posInfinity
  | negInfinity, _ => negInfinity
  | _, negInfinity => negInfinity

/-- The operator `*` with a positive finite constant on the right (`* 60`,
`* 100`). -/
def scale (x : JsNumber) (k : ℚ) : JsNumber :=
  match x with
  | finite a => ofExact (a * k)
  | posInfinity => posInfinity
  | negInfinity => negInfinity
  | nan => nan

/-- The operator `/`. -/
def div (x y : JsNumber) : JsNumber :=
  match x, y with
  | nan, _ => nan
  | _, nan => nan
  | finite a, finite b =>
      if b ≠ 0 then ofExact (a / b)
      else if a > 0 then posInfinity
      else if a < 0 then negInfinity
      else nan
  | finite _, posInfinity => finite 0
  | finite _, negInfinity => finite 0
  | posInfinity, finite b => if b ≥ 0 then posInfinity else negInfinity
  | negInfinity, finite b => if b ≥ 0 then negInfinity else posInfinity
  | posInfinity, posInfinity => nan
  | posInfinity, negInfinity => nan
  | negInfinity, posInfinity => nan
  | negInfinity, negInfinity => nan

/-- The comparison `x > 0`; it is `false` for `NaN`. -/
def isPositive (x : JsNumber) : Bool :=
  match x with
  | finite a => decide (a > 0)
  | posInfinity => true
  | negInfinity => false
  | nan => false

/-- `Math.max(a, x)` for a finite `a`; it is `NaN` when `x` is. -/
def mathMax (a : ℚ) (x : JsNumber) : JsNumber :=
  match x with
  | finite b => finite (max a b)
  | posInfinity => posInfinity
  | negInfinity => finite a
  | nan => nan

/-- `Math.min(a, x)` for a finite `a`; it is `NaN` when `x` is. -/
def mathMin (a : ℚ) (x : JsNumber) : JsNumber :=
  match x with
  | finite b => finite (min a b)
  | posInfinity => finite a
  | negInfinity => negInfinity
  | nan => nan

end JsNumber

namespace MyEnrollments

/-- The two accumulators of `getCourseProgress` as JavaScript numbers. -/
structure JsTotals where
  totalWatchTime : JsNumber
  totalDuration : JsNumber
deriving DecidableEq, Repr

/-- The authored duration in seconds, `lecture.lectureDuration * 60`. -/
def authoredSeconds (lecture : Lecture) : JsNumber :=
  (JsNumber.finite lecture.lectureDuration).scale 60

/-- Body of the inner `forEach` of lines 45-57 on JavaScript numbers. The
stored `watchTime` and `totalDuration` are finite numbers; `watchTime || 0` is
the stored `watchTime`. -/
def addTrackedJs (progressData : CourseProgress) (acc : JsTotals) (lecture : Lecture) :
    JsTotals :=
  match findLecture progressData.lectureProgress lecture.lectureId with
  | some lectureProgress =>
      { totalWatchTime := acc.totalWatchTime.add (JsNumber.finite lectureProgress.watchTime),
        totalDuration :=
          acc.totalDuration.add
            (if lectureProgress.totalDuration ≠ 0 then
              JsNumber.finite lectureProgress.totalDuration
            else authoredSeconds lecture) }
  | none =>
      { acc with totalDuration := acc.totalDuration.add (authoredSeconds lecture) }

/-- Body of the inner `forEach` of lines 62-64 on JavaScript numbers. -/
def addAuthoredJs (acc : JsTotals) (lecture : Lecture) : JsTotals :=
  { acc with totalDuration := acc.totalDuration.add (authoredSeconds lecture) }

/-- Lines 39-66 on JavaScript numbers. -/
def accumulateJs (course : Course) (progressData : Option CourseProgress) : JsTotals :=
  match progressData with
  | some pd =>
      course.courseContent.foldl
        (fun acc chapter => chapter.chapterContent.foldl (addTrackedJs pd) acc)
        ⟨JsNumber.finite 0, JsNumber.finite 0⟩
  | none =>
      course.courseContent.foldl
        (fun acc chapter => chapter.chapterContent.foldl addAuthoredJs acc)
        ⟨JsNumber.finite 0, JsNumber.finite 0⟩

/-- Lines 69-71 on JavaScript numbers. -/
def rawPercentJs (totals : JsTotals) : JsNumber :=
  if totals.totalDuration.isPositive then
    (totals.totalWatchTime.div totals.totalDuration).scale 100
  else JsNumber.finite 0

/-- The `progressPercent` of `getCourseProgress` (line 76) on JavaScript
numbers. -/
def progressPercentJs (course : Course) (progressData : Option CourseProgress) : JsNumber :=
  JsNumber.mathMin 100 (JsNumber.mathMax 0 (rawPercentJs (accumulateJs course progressData)))

end MyEnrollments

/-- A record whose two entries each hold `1e308` seconds watched of `1e308`. -/
def hugeRecord : CourseProgress :=
  { userId := "u", courseId := "c", completed := false, lectureCompleted := [],
    lectureProgress :=
      [{ lectureId := "a", watchTime := (((10 ^ 308 : ℕ) : ℤ) : ℚ),
         totalDuration := (((10 ^ 308 : ℕ) : ℤ) : ℚ), completed := false },
       { lectureId := "b", watchTime := (((10 ^ 308 : ℕ) : ℤ) : ℚ),
         totalDuration := (((10 ^ 308 : ℕ) : ℤ) : ℚ), completed := false }] }

end SkillSphere

/-! ## Lemmas on the store -/

namespace SkillSphere

open userController

theorem matchesFilter_iff (u c : String) (d : CourseProgress) :
    matchesFilter u c d = true ↔ d.userId = u ∧ d.courseId = c := by
  simp [matchesFilter]

theorem findOne_matches {store : Store} {u c : String} {d : CourseProgress}
    (h : findOne store u c = some d) : d.userId = u ∧ d.courseId = c := by
  have := List.find?_some h
  exact (matchesFilter_iff u c d).1 this

theorem findOne_append (store : Store) (doc : CourseProgress) (u c : String) :
    findOne (store ++ [doc]) u c =
      match findOne store u c with
      | some d => some d
      | none => if matchesFilter u c doc then some doc else none := by
  unfold findOne
  rw [List.find?_append]
  cases h : List.find? (matchesFilter u c) store <;> simp [List.find?]
  split <;> simp_all

theorem findOne_save (store : Store) (doc : CourseProgress) (u c : String) :
    findOne (save store doc) u c =
      if matchesFilter u c doc then (findOne store u c).map (fun _ => doc)
      else findOne store u c := by
  induction store with
  | nil => simp [save, findOne]
  | cons d ds ih =>
    unfold findOne at ih ⊢
    simp only [save]
    by_cases hd : matchesFilter doc.userId doc.courseId d = true
    · rw [if_pos hd]
      rw [matchesFilter_iff] at hd
      by_cases hm : matchesFilter u c doc = true
      · have hm2 := (matchesFilter_iff u c doc).1 hm
        have : matchesFilter u c d = true := by
          rw [matchesFilter_iff]; exact ⟨hd.1.trans hm2.1, hd.2.trans hm2.2⟩
        simp [List.find?, hm, this]
      · have : ¬ matchesFilter u c d = true := by
          intro h
          rw [matchesFilter_iff] at h
          apply hm
          rw [matchesFilter_iff]
          exact ⟨hd.1.symm.trans h.1, hd.2.symm.trans h.2⟩
        simp [List.find?, hm, this]
    · rw [if_neg hd]
      by_cases hm : matchesFilter u c doc = true
      · have hm2 := (matchesFilter_iff u c doc).1 hm
        have : ¬ matchesFilter u c d = true := by
          intro h
          apply hd
          rw [matchesFilter_iff] at h ⊢
          exact ⟨h.1.trans hm2.1.symm, h.2.trans hm2.2.symm⟩
        simp only [List.find?, this, hm, if_true] at ih ⊢
        simpa using ih
      · simp only [hm] at ih
        by_cases hx : matchesFilter u c d = true
        · simp [List.find?, hx, hm]
        · simp only [List.find?, hx, hm]
          simpa using ih

theorem findLecture_some_id {entries : List LectureProgress} {l : String}
    {e : LectureProgress} (h : findLecture entries l = some e) : e.lectureId = l := by
  have := List.find?_some h
  simpa using this

theorem findLecture_append (entries : List LectureProgress) (e : LectureProgress)
    (l : String) :
    findLecture (entries ++ [e]) l =
      match findLecture entries l with
      | some x => some x
      | none => if e.lectureId = l then some e else none := by
  unfold findLecture
  rw [List.find?_append]
  cases h : List.find? (fun lp => lp.lectureId == l) entries <;> simp [List.find?]
  split <;> simp_all

theorem findLecture_write (entries : List LectureProgress) (l : String)
    (lp : LectureProgress) (hlp : lp.lectureId = l) (k : String) :
    findLecture (writeLecture entries l lp) k =
      if k = l then (findLecture entries l).map (fun _ => lp)
      else findLecture entries k := by
  induction entries with
  | nil => simp [writeLecture, findLecture]
  | cons e es ih =>
    unfold findLecture at ih ⊢
    simp only [writeLecture]
    by_cases he : e.lectureId = l
    · have hel : (e.lectureId == l) = true := by simp [he]
      by_cases hk : k = l
      · subst hk
        have hlk : (lp.lectureId == k) = true := by simp [hlp]
        simp [List.find?, hel, hlk]
      · have h1 : (e.lectureId == k) = false := by
          simp only [beq_eq_false_iff_ne, ne_eq]
          exact fun h => hk (h.symm.trans he)
        have h2 : (lp.lectureId == k) = false := by
          simp only [beq_eq_false_iff_ne, ne_eq]
          exact fun h => hk (h.symm.trans hlp)
        simp [List.find?, hel, hk, h1, h2]
    · have hel : (e.lectureId == l) = false := by simp [he]
      by_cases hk : k = l
      · subst hk
        simp only [if_true] at ih
        simp [List.find?, hel, ih]
      · simp only [hk, if_false] at ih
        by_cases hx : e.lectureId = k
        · have hb : (e.lectureId == k) = true := by simp [hx]
          simp [List.find?, hel, hk, hb]
        · have hb : (e.lectureId == k) = false := by simp [hx]
          simp [List.find?, hel, hk, hb, ih]

end SkillSphere

/-! ## Lemmas on the handlers -/

namespace SkillSphere

open userController

theorem reconcile_userId (pd : CourseProgress) (l : String) (w : ℚ) (td : Option ℚ) :
    (reconcile pd l w td).userId = pd.userId := by
  unfold reconcile
  split <;> (dsimp only; split <;> rfl)

theorem reconcile_courseId (pd : CourseProgress) (l : String) (w : ℚ) (td : Option ℚ) :
    (reconcile pd l w td).courseId = pd.courseId := by
  unfold reconcile
  split <;> (dsimp only; split <;> rfl)

theorem reconcile_lectureCompleted (pd : CourseProgress) (l : String) (w : ℚ)
    (td : Option ℚ) :
    (reconcile pd l w td).lectureCompleted =
      if reachedThreshold (updateTimes (localEntry pd l td) w td) then
        pushIfAbsent pd.lectureCompleted l
      else pd.lectureCompleted := by
  unfold reconcile localEntry freshEntry
  split <;> (dsimp only; split <;> rfl)

theorem reconcile_lectureProgress (pd : CourseProgress) (l : String) (w : ℚ)
    (td : Option ℚ) :
    (reconcile pd l w td).lectureProgress =
      match findLecture pd.lectureProgress l with
      | some found =>
          writeLecture pd.lectureProgress l (autoComplete (updateTimes found w td))
      | none => pd.lectureProgress ++ [freshEntry l td] := by
  unfold reconcile freshEntry
  split <;> (dsimp only; split <;> rfl)

theorem updateTimes_lectureId (lp : LectureProgress) (w : ℚ) (td : Option ℚ) :
    (updateTimes lp w td).lectureId = lp.lectureId := by
  unfold updateTimes
  dsimp only
  split <;> rfl

theorem autoComplete_lectureId (lp : LectureProgress) :
    (autoComplete lp).lectureId = lp.lectureId := by
  unfold autoComplete
  split <;> rfl

theorem reconcile_entry_same (pd : CourseProgress) (l : String) (w : ℚ) (td : Option ℚ) :
    findLecture (reconcile pd l w td).lectureProgress l =
      match findLecture pd.lectureProgress l with
      | some found => some (autoComplete (updateTimes found w td))
      | none => some (freshEntry l td) := by
  rw [reconcile_lectureProgress]
  cases h : findLecture pd.lectureProgress l with
  | some found =>
    dsimp only
    rw [findLecture_write _ _ _ _ l, if_pos rfl, h]
    · rfl
    · rw [autoComplete_lectureId, updateTimes_lectureId]
      exact findLecture_some_id h
  | none =>
    dsimp only
    rw [findLecture_append, h]
    simp [freshEntry]

theorem reconcile_entry_other (pd : CourseProgress) (l k : String) (w : ℚ)
    (td : Option ℚ) (hk : k ≠ l) :
    findLecture (reconcile pd l w td).lectureProgress k =
      findLecture pd.lectureProgress k := by
  rw [reconcile_lectureProgress]
  cases h : findLecture pd.lectureProgress l with
  | some found =>
    dsimp only
    rw [findLecture_write _ _ _ _ k, if_neg hk]
    rw [autoComplete_lectureId, updateTimes_lectureId]
    exact findLecture_some_id h
  | none =>
    dsimp only
    rw [findLecture_append]
    cases findLecture pd.lectureProgress k with
    | some x => rfl
    | none =>
      have : ¬ (freshEntry l td).lectureId = k := fun h2 => hk h2.symm
      simp [this]

/-- The document stored for the request's `(userId, courseId)` after a valid
watch sample is the reconciled loaded-or-created document; every other document
is as before. -/
theorem findOne_updateWatchProgress (store : Store) (u : String) (body : WatchBody)
    (w : ℚ) (hu : u ≠ "" ∨ findOne store u body.courseId ≠ none)
    (hc : body.courseId ≠ "") (hl : body.lectureId ≠ "")
    (hw : body.watchTime = some w) (u2 c2 : String) :
    findOne (updateWatchProgress store u body).1 u2 c2 =
      if u2 = u ∧ c2 = body.courseId then
        some (reconcile (loadedRecord store u body.courseId) body.lectureId w
          body.totalDuration)
      else findOne store u2 c2 := by
  unfold updateWatchProgress loadedRecord
  rw [hw]
  dsimp only
  rw [if_neg (by simp [hc, hl])]
  cases h : findOne store u body.courseId with
  | some pd =>
    dsimp only
    have hm := findOne_matches h
    rw [findOne_save]
    by_cases hx : u2 = u ∧ c2 = body.courseId
    · have : matchesFilter u2 c2 (reconcile pd body.lectureId w body.totalDuration) = true := by
        rw [matchesFilter_iff, reconcile_userId, reconcile_courseId]
        exact ⟨hm.1.trans hx.1.symm, hm.2.trans hx.2.symm⟩
      rw [if_pos this, if_pos hx, hx.1, hx.2, h]
      rfl
    · have : ¬ matchesFilter u2 c2 (reconcile pd body.lectureId w body.totalDuration) = true := by
        rw [matchesFilter_iff, reconcile_userId, reconcile_courseId]
        intro h2
        exact hx ⟨h2.1.symm.trans hm.1, h2.2.symm.trans hm.2⟩
      rw [if_neg this, if_neg hx]
  | none =>
    dsimp only
    have hu : u ≠ "" := hu.resolve_right (fun h2 => h2 h)
    simp only [create, if_neg hu, if_neg hc]
    rw [findOne_save, findOne_append]
    by_cases hx : u2 = u ∧ c2 = body.courseId
    · have : matchesFilter u2 c2
          (reconcile
            { userId := u, courseId := body.courseId, completed := false,
              lectureCompleted := [], lectureProgress := [] }
            body.lectureId w body.totalDuration) = true := by
        rw [matchesFilter_iff, reconcile_userId, reconcile_courseId]
        exact ⟨hx.1.symm, hx.2.symm⟩
      rw [if_pos this, if_pos hx, hx.1, hx.2, h]
      simp [matchesFilter, blankRecord]
    · have : ¬ matchesFilter u2 c2
          (reconcile
            { userId := u, courseId := body.courseId, completed := false,
              lectureCompleted := [], lectureProgress := [] }
            body.lectureId w body.totalDuration) = true := by
        rw [matchesFilter_iff, reconcile_userId, reconcile_courseId]
        intro h2
        exact hx ⟨h2.1.symm, h2.2.symm⟩
      rw [if_neg this, if_neg hx]
      cases h3 : findOne store u2 c2 with
      | some d => rfl
      | none =>
        have : ¬ matchesFilter u2 c2
            { userId := u, courseId := body.courseId, completed := false,
              lectureCompleted := [], lectureProgress := [] } = true := by
          rw [matchesFilter_iff]
          intro h2
          exact hx ⟨h2.1.symm, h2.2.symm⟩
        simp [this]

theorem lectureEntry_eq_loaded (store : Store) (u c l : String) :
    lectureEntry store u c l = findLecture (loadedRecord store u c).lectureProgress l := by
  unfold lectureEntry loadedRecord
  cases findOne store u c <;> rfl

theorem lectureCompletedOf_eq_loaded (store : Store) (u c : String) :
    lectureCompletedOf store u c = (loadedRecord store u c).lectureCompleted := by
  unfold lectureCompletedOf loadedRecord
  cases findOne store u c <;> rfl

/-- The object the local variable refers to, read off the store. -/
theorem localEntry_loaded (store : Store) (u c l : String) (td : Option ℚ) :
    localEntry (loadedRecord store u c) l td =
      match lectureEntry store u c l with
      | some found => found
      | none => freshEntry l td := by
  rw [lectureEntry_eq_loaded]
  rfl

/-- The entry stored for the reported lecture after a valid watch sample. -/
theorem lectureEntry_updateWatchProgress (store : Store) (u : String) (body : WatchBody)
    (w : ℚ) (hu : u ≠ "" ∨ findOne store u body.courseId ≠ none)
    (hc : body.courseId ≠ "") (hl : body.lectureId ≠ "")
    (hw : body.watchTime = some w) :
    lectureEntry (updateWatchProgress store u body).1 u body.courseId body.lectureId =
      match lectureEntry store u body.courseId body.lectureId with
      | some found => some (autoComplete (updateTimes found w body.totalDuration))
      | none => some (freshEntry body.lectureId body.totalDuration) := by
  conv_lhs => unfold lectureEntry
  rw [findOne_updateWatchProgress store u body w hu hc hl hw, if_pos ⟨rfl, rfl⟩]
  dsimp only
  rw [reconcile_entry_same, lectureEntry_eq_loaded]

/-- The `lectureCompleted` array stored after a valid watch sample. -/
theorem lectureCompletedOf_updateWatchProgress (store : Store) (u : String)
    (body : WatchBody) (w : ℚ) (hu : u ≠ "" ∨ findOne store u body.courseId ≠ none)
    (hc : body.courseId ≠ "") (hl : body.lectureId ≠ "")
    (hw : body.watchTime = some w) :
    lectureCompletedOf (updateWatchProgress store u body).1 u body.courseId =
      if reachedThreshold
          (updateTimes (localEntry (loadedRecord store u body.courseId) body.lectureId
            body.totalDuration) w body.totalDuration) then
        pushIfAbsent (lectureCompletedOf store u body.courseId) body.lectureId
      else lectureCompletedOf store u body.courseId := by
  conv_lhs => unfold lectureCompletedOf
  rw [findOne_updateWatchProgress store u body w hu hc hl hw, if_pos ⟨rfl, rfl⟩]
  dsimp only
  rw [reconcile_lectureCompleted, lectureCompletedOf_eq_loaded]

theorem mem_pushIfAbsent (lc : List String) (l k : String) :
    k ∈ pushIfAbsent lc l ↔ k ∈ lc ∨ k = l := by
  unfold pushIfAbsent
  by_cases h : lc.contains l = true
  · rw [if_pos h]
    constructor
    · exact fun h2 => Or.inl h2
    · rintro (h2 | h2)
      · exact h2
      · subst h2; simpa using h
  · rw [if_neg h]
    simp

theorem reachedThreshold_iff (lp : LectureProgress) :
    reachedThreshold lp = true ↔
      lp.totalDuration > 0 ∧ lp.watchTime / lp.totalDuration ≥ 9 / 10 := by
  simp [reachedThreshold]

theorem autoComplete_watchTime (lp : LectureProgress) :
    (autoComplete lp).watchTime = lp.watchTime := by
  unfold autoComplete
  split <;> rfl

theorem autoComplete_totalDuration (lp : LectureProgress) :
    (autoComplete lp).totalDuration = lp.totalDuration := by
  unfold autoComplete
  split <;> rfl

theorem autoComplete_completed (lp : LectureProgress) :
    (autoComplete lp).completed = (lp.completed || reachedThreshold lp) := by
  unfold autoComplete
  split <;> simp_all

theorem updateTimes_watchTime (lp : LectureProgress) (w : ℚ) (td : Option ℚ) :
    (updateTimes lp w td).watchTime = max lp.watchTime w := by
  unfold updateTimes
  dsimp only
  split <;> rfl

theorem updateTimes_completed (lp : LectureProgress) (w : ℚ) (td : Option ℚ) :
    (updateTimes lp w td).completed = lp.completed := by
  unfold updateTimes
  dsimp only
  split <;> rfl

theorem updateTimes_totalDuration (lp : LectureProgress) (w : ℚ) (td : Option ℚ) :
    (updateTimes lp w td).totalDuration =
      if truthy td then orZero td else lp.totalDuration := by
  unfold updateTimes
  dsimp only
  split <;> rfl

end SkillSphere

/-! ## Effect of one valid watch sample on the observations -/

namespace SkillSphere

open userController

/-- The entry the threshold test reads for a lecture: the stored one, or the
fresh plain object. -/
theorem completedFlag_updateWatchProgress (store : Store) (u : String) (body : WatchBody)
    (w : ℚ) (hu : u ≠ "" ∨ findOne store u body.courseId ≠ none)
    (hc : body.courseId ≠ "") (hl : body.lectureId ≠ "")
    (hw : body.watchTime = some w) :
    completedFlag (updateWatchProgress store u body).1 u body.courseId body.lectureId =
      match lectureEntry store u body.courseId body.lectureId with
      | some found =>
          (found.completed || reachedThreshold (updateTimes found w body.totalDuration))
      | none => false := by
  unfold completedFlag
  rw [lectureEntry_updateWatchProgress store u body w hu hc hl hw]
  cases lectureEntry store u body.courseId body.lectureId with
  | some found =>
    dsimp only
    rw [autoComplete_completed, updateTimes_completed]
  | none => rfl

theorem mem_lectureCompletedOf_updateWatchProgress (store : Store) (u : String)
    (body : WatchBody) (w : ℚ) (hu : u ≠ "" ∨ findOne store u body.courseId ≠ none)
    (hc : body.courseId ≠ "") (hl : body.lectureId ≠ "")
    (hw : body.watchTime = some w) (k : String) :
    k ∈ lectureCompletedOf (updateWatchProgress store u body).1 u body.courseId ↔
      k ∈ lectureCompletedOf store u body.courseId ∨
        (k = body.lectureId ∧
          reachedThreshold
            (updateTimes
              (match lectureEntry store u body.courseId body.lectureId with
                | some found => found
                | none => freshEntry body.lectureId body.totalDuration)
              w body.totalDuration) = true) := by
  rw [lectureCompletedOf_updateWatchProgress store u body w hu hc hl hw, localEntry_loaded]
  split
  · rename_i h
    rw [mem_pushIfAbsent]
    constructor
    · rintro (h2 | h2)
      · exact Or.inl h2
      · exact Or.inr ⟨h2, h⟩
    · rintro (h2 | h2)
      · exact Or.inl h2
      · exact Or.inr h2.1
  · rename_i h
    constructor
    · exact fun h2 => Or.inl h2
    · rintro (h2 | h2)
      · exact h2
      · exact absurd h2.2 h

end SkillSphere

/-! ## Effect of a manual completion -/

namespace SkillSphere

open userController

theorem markCompleted_userId (pd : CourseProgress) (l : String) :
    (markCompleted pd l).userId = pd.userId := by
  unfold markCompleted
  dsimp only
  split <;> rfl

theorem markCompleted_courseId (pd : CourseProgress) (l : String) :
    (markCompleted pd l).courseId = pd.courseId := by
  unfold markCompleted
  dsimp only
  split <;> rfl

theorem markCompleted_lectureCompleted (pd : CourseProgress) (l : String) :
    (markCompleted pd l).lectureCompleted = pd.lectureCompleted ++ [l] := by
  unfold markCompleted
  dsimp only
  split <;> rfl

theorem markCompleted_lectureProgress (pd : CourseProgress) (l : String) :
    (markCompleted pd l).lectureProgress =
      match findLecture pd.lectureProgress l with
      | some found => writeLecture pd.lectureProgress l { found with completed := true }
      | none => pd.lectureProgress := by
  unfold markCompleted
  dsimp only
  split <;> simp_all

theorem markCompleted_entry (pd : CourseProgress) (l k : String) :
    findLecture (markCompleted pd l).lectureProgress k =
      if k = l then
        (findLecture pd.lectureProgress l).map (fun found => { found with completed := true })
      else findLecture pd.lectureProgress k := by
  rw [markCompleted_lectureProgress]
  cases h : findLecture pd.lectureProgress l with
  | some found =>
    dsimp only
    have hid0 : found.lectureId = l := findLecture_some_id h
    have hid : ({ found with completed := true } : LectureProgress).lectureId = l := hid0
    rw [findLecture_write pd.lectureProgress l { found with completed := true } hid k, h]
    rfl
  | none =>
    dsimp only
    by_cases hk : k = l
    · rw [if_pos hk, hk, h]; rfl
    · rw [if_neg hk]

/-- The document stored for `(userId, courseId)` once a manual completion has
been handled, when the handler does not fail. -/
theorem findOne_updateUserCourseProgress (store : Store) (u c l : String)
    (hu : (u ≠ "" ∧ c ≠ "") ∨ findOne store u c ≠ none) (u2 c2 : String) :
    findOne (updateUserCourseProgress store u c l).1 u2 c2 =
      if u2 = u ∧ c2 = c then
        some (manualRecord store u c l)
      else findOne store u2 c2 := by
  unfold updateUserCourseProgress manualRecord
  cases h : findOne store u c with
  | some pd =>
    dsimp only
    have hm := findOne_matches h
    by_cases hin : pd.lectureCompleted.contains l = true
    · rw [if_pos hin, if_pos hin]
      by_cases hx : u2 = u ∧ c2 = c
      · rw [if_pos hx, hx.1, hx.2, h]
      · rw [if_neg hx]
    · rw [if_neg hin, if_neg hin]
      dsimp only
      rw [findOne_save]
      by_cases hx : u2 = u ∧ c2 = c
      · have : matchesFilter u2 c2 (markCompleted pd l) = true := by
          rw [matchesFilter_iff, markCompleted_userId, markCompleted_courseId]
          exact ⟨hm.1.trans hx.1.symm, hm.2.trans hx.2.symm⟩
        rw [if_pos this, if_pos hx, hx.1, hx.2, h]
        rfl
      · have : ¬ matchesFilter u2 c2 (markCompleted pd l) = true := by
          rw [matchesFilter_iff, markCompleted_userId, markCompleted_courseId]
          intro h2
          exact hx ⟨h2.1.symm.trans hm.1, h2.2.symm.trans hm.2⟩
        rw [if_neg this, if_neg hx]
  | none =>
    dsimp only
    have hu2 : u ≠ "" ∧ c ≠ "" := hu.resolve_right (fun h2 => h2 h)
    simp only [create, if_neg hu2.1, if_neg hu2.2]
    rw [findOne_append]
    by_cases hx : u2 = u ∧ c2 = c
    · rw [if_pos hx, hx.1, hx.2, h]
      simp [matchesFilter]
    · rw [if_neg hx]
      cases h3 : findOne store u2 c2 with
      | some d => rfl
      | none =>
        have : ¬ matchesFilter u2 c2
            { userId := u, courseId := c, completed := false,
              lectureCompleted := [l], lectureProgress := [] } = true := by
          rw [matchesFilter_iff]
          intro h2
          exact hx ⟨h2.1.symm, h2.2.symm⟩
        simp [this]

/-- A manual completion that fails on validation leaves the store as it was. -/
theorem updateUserCourseProgress_rejected (store : Store) (u c l : String)
    (hu : ¬ ((u ≠ "" ∧ c ≠ "") ∨ findOne store u c ≠ none)) :
    (updateUserCourseProgress store u c l).1 = store := by
  unfold updateUserCourseProgress
  cases h : findOne store u c with
  | some pd => exact absurd (Or.inr (by simp [h])) hu
  | none =>
    dsimp only
    by_cases h1 : u = ""
    · simp [create, h1]
    · by_cases h2 : c = ""
      · simp [create, h1, h2]
      · exact absurd (Or.inl ⟨h1, h2⟩) hu

/-- A watch sample that is rejected leaves the store as it was. -/
theorem updateWatchProgress_rejected (store : Store) (u : String) (body : WatchBody)
    (h : body.watchTime = none ∨ body.courseId = "" ∨ body.lectureId = "" ∨
      (u = "" ∧ findOne store u body.courseId = none)) :
    (updateWatchProgress store u body).1 = store := by
  unfold updateWatchProgress
  cases hw : body.watchTime with
  | none => rfl
  | some w =>
    dsimp only
    by_cases hcl : body.courseId = "" ∨ body.lectureId = ""
    · rw [if_pos hcl]
    · rw [if_neg hcl]
      have h2 : u = "" ∧ findOne store u body.courseId = none := by
        rcases h with h | h | h | h
        · rw [hw] at h; exact absurd h (by simp)
        · exact absurd (Or.inl h) hcl
        · exact absurd (Or.inr h) hcl
        · exact h
      rw [h2.2]
      dsimp only
      simp [create, h2.1]

end SkillSphere

/-! ## Completion is kept by every request -/

namespace SkillSphere

open userController

theorem KeepsCompletion.refl (d : CourseProgress) : KeepsCompletion d d :=
  ⟨fun _ e h1 h2 => ⟨e, h1, h2⟩, fun _ h => h⟩

theorem KeepsCompletion.trans {a b c : CourseProgress} (h1 : KeepsCompletion a b)
    (h2 : KeepsCompletion b c) : KeepsCompletion a c := by
  constructor
  · intro l e he hc
    obtain ⟨e2, he2, hc2⟩ := h1.1 l e he hc
    exact h2.1 l e2 he2 hc2
  · intro l hl
    exact h2.2 l (h1.2 l hl)

theorem keepsCompletion_reconcile (pd : CourseProgress) (l : String) (w : ℚ)
    (td : Option ℚ) : KeepsCompletion pd (reconcile pd l w td) := by
  constructor
  · intro k e he hc
    by_cases hk : k = l
    · subst hk
      rw [reconcile_entry_same, he]
      refine ⟨_, rfl, ?_⟩
      rw [autoComplete_completed, updateTimes_completed, hc]
      rfl
    · rw [reconcile_entry_other pd l k w td hk]
      exact ⟨e, he, hc⟩
  · intro k hk
    rw [reconcile_lectureCompleted]
    split
    · exact (mem_pushIfAbsent _ _ _).2 (Or.inl hk)
    · exact hk

theorem keepsCompletion_markCompleted (pd : CourseProgress) (l : String) :
    KeepsCompletion pd (markCompleted pd l) := by
  constructor
  · intro k e he hc
    rw [markCompleted_entry]
    by_cases hk : k = l
    · subst hk
      rw [if_pos rfl, he]
      exact ⟨_, rfl, rfl⟩
    · rw [if_neg hk]
      exact ⟨e, he, hc⟩
  · intro k hk
    rw [markCompleted_lectureCompleted]
    exact List.mem_append_left _ hk

/-- Every stored document is still stored after one request, with its
completions kept. -/
theorem serve_keepsCompletion (store : Store) (r : Request) (u c : String)
    (d : CourseProgress) (hd : findOne store u c = some d) :
    ∃ d2, findOne (serve store r) u c = some d2 ∧ KeepsCompletion d d2 := by
  cases r with
  | watch u0 body =>
    simp only [serve]
    by_cases hrej : body.watchTime = none ∨ body.courseId = "" ∨ body.lectureId = "" ∨
        (u0 = "" ∧ findOne store u0 body.courseId = none)
    · rw [updateWatchProgress_rejected store u0 body hrej]
      exact ⟨d, hd, KeepsCompletion.refl d⟩
    · simp only [not_or, not_and_or] at hrej
      obtain ⟨hw, hc, hl, hu⟩ := hrej
      obtain ⟨w, hw⟩ := Option.ne_none_iff_exists'.1 hw
      rw [findOne_updateWatchProgress store u0 body w hu hc hl hw]
      by_cases hx : u = u0 ∧ c = body.courseId
      · rw [if_pos hx]
        refine ⟨_, rfl, ?_⟩
        have : loadedRecord store u0 body.courseId = d := by
          unfold loadedRecord
          rw [← hx.1, ← hx.2, hd]
        rw [this]
        exact keepsCompletion_reconcile d _ _ _
      · rw [if_neg hx]
        exact ⟨d, hd, KeepsCompletion.refl d⟩
  | manual u0 c0 l0 =>
    simp only [serve]
    by_cases hok : (u0 ≠ "" ∧ c0 ≠ "") ∨ findOne store u0 c0 ≠ none
    · rw [findOne_updateUserCourseProgress store u0 c0 l0 hok]
      by_cases hx : u = u0 ∧ c = c0
      · rw [if_pos hx]
        refine ⟨_, rfl, ?_⟩
        unfold manualRecord
        rw [← hx.1, ← hx.2, hd]
        dsimp only
        split
        · exact KeepsCompletion.refl d
        · exact keepsCompletion_markCompleted d _
      · rw [if_neg hx]
        exact ⟨d, hd, KeepsCompletion.refl d⟩
    · rw [updateUserCourseProgress_rejected store u0 c0 l0 hok]
      exact ⟨d, hd, KeepsCompletion.refl d⟩

theorem serveAll_keepsCompletion (requests : List Request) (store : Store)
    (u c : String) (d : CourseProgress) (hd : findOne store u c = some d) :
    ∃ d2, findOne (serveAll store requests) u c = some d2 ∧ KeepsCompletion d d2 := by
  induction requests generalizing store d with
  | nil => exact ⟨d, hd, KeepsCompletion.refl d⟩
  | cons r rs ih =>
    obtain ⟨d1, hd1, k1⟩ := serve_keepsCompletion store r u c d hd
    obtain ⟨d2, hd2, k2⟩ := ih (serve store r) d1 hd1
    exact ⟨d2, hd2, k1.trans k2⟩

end SkillSphere

/-! ## Further lemmas for the claims -/

namespace SkillSphere

open userController

theorem updateUserCourseProgress_already (store : Store) (u c l : String)
    (pd : CourseProgress) (h : findOne store u c = some pd)
    (hin : pd.lectureCompleted.contains l = true) :
    updateUserCourseProgress store u c l = (store, ⟨true, "Lecture Already Completed"⟩) := by
  unfold updateUserCourseProgress
  rw [h]
  dsimp only
  rw [if_pos hin]

theorem manualRecord_contains (store : Store) (u c l : String) :
    (manualRecord store u c l).lectureCompleted.contains l = true := by
  unfold manualRecord
  cases findOne store u c with
  | some pd =>
    dsimp only
    split
    · assumption
    · rw [markCompleted_lectureCompleted]; simp
  | none => simp

/-- After a watch request an entry that existed is either as it was, or it is
the entry of the reported lecture with lines 208-219 applied to it. -/
theorem lectureEntry_updateWatchProgress_cases (store : Store) (u : String)
    (body : WatchBody) (u2 c2 l2 : String) (e : LectureProgress)
    (he : lectureEntry store u2 c2 l2 = some e) :
    lectureEntry (updateWatchProgress store u body).1 u2 c2 l2 = some e ∨
      ∃ w, body.watchTime = some w ∧ u2 = u ∧ c2 = body.courseId ∧ l2 = body.lectureId ∧
        lectureEntry (updateWatchProgress store u body).1 u2 c2 l2 =
          some (autoComplete (updateTimes e w body.totalDuration)) := by
  by_cases hrej : body.watchTime = none ∨ body.courseId = "" ∨ body.lectureId = "" ∨
      (u = "" ∧ findOne store u body.courseId = none)
  · rw [updateWatchProgress_rejected store u body hrej]
    exact Or.inl he
  · simp only [not_or, not_and_or] at hrej
    obtain ⟨hw, hc, hl, hu⟩ := hrej
    obtain ⟨w, hw⟩ := Option.ne_none_iff_exists'.1 hw
    by_cases hx : u2 = u ∧ c2 = body.courseId
    · obtain ⟨hx1, hx2⟩ := hx
      subst hx1 hx2
      by_cases hk : l2 = body.lectureId
      · subst hk
        right
        refine ⟨w, hw, rfl, rfl, rfl, ?_⟩
        rw [lectureEntry_updateWatchProgress store u2 body w hu hc hl hw, he]
      · left
        conv_lhs => unfold lectureEntry
        rw [findOne_updateWatchProgress store u2 body w hu hc hl hw, if_pos ⟨rfl, rfl⟩]
        dsimp only
        rw [reconcile_entry_other _ _ _ _ _ hk, ← lectureEntry_eq_loaded, he]
    · left
      have h2 := findOne_updateWatchProgress store u body w hu hc hl hw u2 c2
      rw [if_neg hx] at h2
      unfold lectureEntry at he ⊢
      rw [h2]
      exact he

theorem completedFlag_eq_true_iff (store : Store) (u c l : String) :
    completedFlag store u c l = true ↔
      ∃ d e, findOne store u c = some d ∧ findLecture d.lectureProgress l = some e ∧
        e.completed = true := by
  unfold completedFlag lectureEntry
  cases findOne store u c with
  | some d =>
    dsimp only
    cases h : findLecture d.lectureProgress l with
    | some e =>
      dsimp only
      constructor
      · exact fun hc => ⟨d, e, rfl, h, hc⟩
      · rintro ⟨d2, e2, h1, h2, h3⟩
        cases h1
        rw [h] at h2
        cases h2
        exact h3
    | none =>
      dsimp only
      constructor
      · intro hc; exact absurd hc (by simp)
      · rintro ⟨d2, e2, h1, h2, h3⟩
        cases h1
        rw [h] at h2
        cases h2
  | none =>
    dsimp only
    constructor
    · intro hc; exact absurd hc (by simp)
    · rintro ⟨d2, e2, h1, h2, h3⟩
      cases h1

end SkillSphere

/-! ## The totals of `getCourseProgress` as sums -/

namespace SkillSphere

namespace MyEnrollments

theorem foldl_chapters {α : Type} (f : α → Lecture → α) (chapters : List Chapter) (acc : α) :
    chapters.foldl (fun a chapter => chapter.chapterContent.foldl f a) acc =
      (chapters.flatMap (fun chapter => chapter.chapterContent)).foldl f acc := by
  induction chapters generalizing acc with
  | nil => rfl
  | cons ch chs ih =>
    rw [List.foldl_cons, ih, List.flatMap_cons, List.foldl_append]

theorem foldl_addTracked (pd : CourseProgress) (lectures : List Lecture) (acc : Totals) :
    lectures.foldl (addTracked pd) acc =
      { totalWatchTime := acc.totalWatchTime +
          (lectures.map (fun lecture =>
            match entryOf (some pd) lecture with
            | some lp => lp.watchTime
            | none => 0)).sum,
        totalDuration := acc.totalDuration +
          (lectures.map (fun lecture =>
            match entryOf (some pd) lecture with
            | some lp =>
                if lp.totalDuration ≠ 0 then lp.totalDuration else lecture.lectureDuration * 60
            | none => lecture.lectureDuration * 60)).sum } := by
  induction lectures generalizing acc with
  | nil => simp
  | cons x xs ih =>
    rw [List.foldl_cons, ih]
    simp only [List.map_cons, List.sum_cons, entryOf, addTracked, durationOr]
    cases findLecture pd.lectureProgress x.lectureId with
    | some lp => simp only [Totals.mk.injEq]; constructor <;> ring
    | none => simp only [Totals.mk.injEq]; constructor <;> ring

theorem foldl_addAuthored (lectures : List Lecture) (acc : Totals) :
    lectures.foldl addAuthored acc =
      { totalWatchTime := acc.totalWatchTime,
        totalDuration := acc.totalDuration +
          (lectures.map (fun lecture => lecture.lectureDuration * 60)).sum } := by
  induction lectures generalizing acc with
  | nil => simp
  | cons x xs ih =>
    rw [List.foldl_cons, ih]
    simp only [List.map_cons, List.sum_cons, addAuthored, Totals.mk.injEq]
    constructor
    · trivial
    · ring

/-- The accumulators after the loops are the two sums, the second one with the
fallback to the authored duration. -/
theorem accumulate_eq (course : Course) (progressData : Option CourseProgress) :
    accumulate course progressData =
      { totalWatchTime := specWatchTime course progressData,
        totalDuration := fallbackDuration course progressData } := by
  unfold accumulate specWatchTime fallbackDuration lecturesOf
  cases progressData with
  | some pd =>
    dsimp only
    rw [foldl_chapters, foldl_addTracked]
    simp
  | none =>
    dsimp only
    rw [foldl_chapters, foldl_addAuthored]
    simp [entryOf]

theorem clamp_bounds (x : ℚ) : 0 ≤ min 100 (max 0 x) ∧ min 100 (max 0 x) ≤ 100 :=
  ⟨le_min (by norm_num) (le_max_left 0 x), min_le_left 100 _⟩

end MyEnrollments

end SkillSphere

/-! ## Invariants of the documents of a store -/

namespace SkillSphere

open userController

theorem mem_save {store : Store} {doc d : CourseProgress} (h : d ∈ save store doc) :
    d ∈ store ∨ d = doc := by
  induction store with
  | nil => simp [save] at h
  | cons x xs ih =>
    simp only [save] at h
    split at h
    · rcases List.mem_cons.1 h with h2 | h2
      · exact Or.inr h2
      · exact Or.inl (List.mem_cons_of_mem _ h2)
    · rcases List.mem_cons.1 h with h2 | h2
      · exact Or.inl (h2 ▸ List.mem_cons_self _ _)
      · rcases ih h2 with h3 | h3
        · exact Or.inl (List.mem_cons_of_mem _ h3)
        · exact Or.inr h3

theorem findOne_mem {store : Store} {u c : String} {d : CourseProgress}
    (h : findOne store u c = some d) : d ∈ store :=
  List.mem_of_find?_eq_some h

/-- A property of documents that holds for the documents the handlers create
and is kept by lines 192-225 and by lines 146-154 holds for every document of
the store after a request when it held for every document before. -/
theorem serve_preserves (P : CourseProgress → Prop)
    (hrec : ∀ pd l w td, P pd → P (reconcile pd l w td))
    (hmark : ∀ pd l, P pd → pd.lectureCompleted.contains l = false → P (markCompleted pd l))
    (hblank : ∀ u c, P (blankRecord u c))
    (hnew : ∀ u c l, P (createdByManual u c l))
    (store : Store) (r : Request) (hstore : ∀ d ∈ store, P d) :
    ∀ d ∈ serve store r, P d := by
  intro d hd
  cases r with
  | watch u body =>
    simp only [serve, updateWatchProgress] at hd
    split at hd
    · exact hstore d hd
    · rename_i w hw
      split at hd
      · exact hstore d hd
      · split at hd
        · rename_i pd hpd
          rcases mem_save hd with h | h
          · exact hstore d h
          · rw [h]; exact hrec _ _ _ _ (hstore pd (findOne_mem hpd))
        · simp only [create] at hd
          split at hd
          · rename_i store1 hc
            split at hc
            · cases hc
            · split at hc
              · cases hc
              · cases hc
                rcases mem_save hd with h | h
                · rcases List.mem_append.1 h with h2 | h2
                  · exact hstore d h2
                  · rw [List.mem_singleton.1 h2]; exact hblank _ _
                · rw [h]; exact hrec _ _ _ _ (hblank _ _)
          · exact hstore d hd
  | manual u c l =>
    simp only [serve, updateUserCourseProgress] at hd
    split at hd
    · rename_i pd hpd
      split at hd
      · exact hstore d hd
      · rename_i hin
        rcases mem_save hd with h | h
        · exact hstore d h
        · rw [h]
          exact hmark _ _ (hstore pd (findOne_mem hpd)) (by simpa using hin)
    · simp only [create] at hd
      split at hd
      · rename_i store1 hc
        split at hc
        · cases hc
        · split at hc
          · cases hc
          · cases hc
            rcases List.mem_append.1 hd with h2 | h2
            · exact hstore d h2
            · rw [List.mem_singleton.1 h2]; exact hnew _ _ _
      · exact hstore d hd

theorem serveAll_preserves (P : CourseProgress → Prop)
    (hrec : ∀ pd l w td, P pd → P (reconcile pd l w td))
    (hmark : ∀ pd l, P pd → pd.lectureCompleted.contains l = false → P (markCompleted pd l))
    (hblank : ∀ u c, P (blankRecord u c))
    (hnew : ∀ u c l, P (createdByManual u c l))
    (requests : List Request) (store : Store) (hstore : ∀ d ∈ store, P d) :
    ∀ d ∈ serveAll store requests, P d := by
  induction requests generalizing store with
  | nil => exact hstore
  | cons r rs ih =>
    exact ih (serve store r) (serve_preserves P hrec hmark hblank hnew store r hstore)

theorem nodup_pushIfAbsent (lc : List String) (l : String) (h : lc.Nodup) :
    (pushIfAbsent lc l).Nodup := by
  unfold pushIfAbsent
  split
  · exact h
  · rename_i hin
    rw [List.nodup_append]
    refine ⟨h, List.nodup_singleton l, ?_⟩
    intro a ha hb
    rw [List.mem_singleton] at hb
    subst hb
    exact hin (by simpa using ha)

theorem map_lectureId_writeLecture (entries : List LectureProgress) (l : String)
    (lp : LectureProgress) (hlp : lp.lectureId = l) :
    (writeLecture entries l lp).map (fun e => e.lectureId) =
      entries.map (fun e => e.lectureId) := by
  induction entries with
  | nil => rfl
  | cons e es ih =>
    simp only [writeLecture]
    split
    · rename_i he
      have : e.lectureId = l := by simpa using he
      simp [hlp, this]
    · simp [ih]

theorem findLecture_eq_none_iff (entries : List LectureProgress) (l : String) :
    findLecture entries l = none ↔ l ∉ entries.map (fun e => e.lectureId) := by
  unfold findLecture
  rw [List.find?_eq_none]
  simp only [List.mem_map, not_exists, not_and]
  constructor
  · intro h e he heq
    have := h e he
    simp [heq] at this
  · intro h e he
    simpa using h e he

theorem reconcile_map_lectureId (pd : CourseProgress) (l : String) (w : ℚ) (td : Option ℚ) :
    (reconcile pd l w td).lectureProgress.map (fun e => e.lectureId) =
      match findLecture pd.lectureProgress l with
      | some _ => pd.lectureProgress.map (fun e => e.lectureId)
      | none => pd.lectureProgress.map (fun e => e.lectureId) ++ [l] := by
  rw [reconcile_lectureProgress]
  cases h : findLecture pd.lectureProgress l with
  | some found =>
    dsimp only
    rw [map_lectureId_writeLecture]
    rw [autoComplete_lectureId, updateTimes_lectureId]
    exact findLecture_some_id h
  | none => simp [freshEntry]

theorem markCompleted_map_lectureId (pd : CourseProgress) (l : String) :
    (markCompleted pd l).lectureProgress.map (fun e => e.lectureId) =
      pd.lectureProgress.map (fun e => e.lectureId) := by
  rw [markCompleted_lectureProgress]
  cases h : findLecture pd.lectureProgress l with
  | some found =>
    dsimp only
    have hid : found.lectureId = l := findLecture_some_id h
    rw [map_lectureId_writeLecture]
    exact hid
  | none => rfl

end SkillSphere

/-! ## Further lemmas on the two handlers -/

namespace SkillSphere

open userController

theorem findOne_ne_none_of_entry {store : Store} {u c l : String} {e : LectureProgress}
    (h : lectureEntry store u c l = some e) : findOne store u c ≠ none := by
  unfold lectureEntry at h
  intro hn
  rw [hn] at h
  cases h

theorem markCompleted_completed (pd : CourseProgress) (l : String) :
    (markCompleted pd l).completed = pd.completed := by
  unfold markCompleted
  dsimp only
  split <;> rfl

theorem reconcile_completed (pd : CourseProgress) (l : String) (w : ℚ) (td : Option ℚ) :
    (reconcile pd l w td).completed = pd.completed := by
  unfold reconcile
  split <;> (dsimp only; split <;> rfl)

/-- The answer of `updateUserCourseProgress` on a record that does not yet
list the lecture. -/
theorem updateUserCourseProgress_fresh (store : Store) (u c l : String)
    (d : CourseProgress) (hd : findOne store u c = some d)
    (hnot : l ∉ d.lectureCompleted) :
    updateUserCourseProgress store u c l =
      (save store (markCompleted d l), ⟨true, "Progress Updated"⟩) := by
  unfold updateUserCourseProgress
  rw [hd]
  dsimp only
  rw [if_neg (by simpa using hnot)]

end SkillSphere

/-! ## Samples for two different lectures -/

namespace SkillSphere

open userController

theorem writeLecture_comm (entries : List LectureProgress) (l1 l2 : String)
    (a b : LectureProgress) (hne : l1 ≠ l2) (ha : a.lectureId = l1) (hb : b.lectureId = l2) :
    writeLecture (writeLecture entries l1 a) l2 b =
      writeLecture (writeLecture entries l2 b) l1 a := by
  have hne2 : ¬ l2 = l1 := fun h => hne h.symm
  induction entries with
  | nil => rfl
  | cons e es ih =>
    by_cases h1 : e.lectureId = l1
    · have e1 : (e.lectureId == l1) = true := by simp [h1]
      have e2 : (e.lectureId == l2) = false := by
        simp only [beq_eq_false_iff_ne, ne_eq]
        exact fun h => hne (h1.symm.trans h)
      have e3 : (a.lectureId == l2) = false := by
        simp only [beq_eq_false_iff_ne, ne_eq]
        exact fun h => hne (ha.symm.trans h)
      simp only [writeLecture, e1, e2, e3, if_true, Bool.false_eq_true, if_false]
    · have e1 : (e.lectureId == l1) = false := by simp [h1]
      by_cases h2 : e.lectureId = l2
      · have e2 : (e.lectureId == l2) = true := by simp [h2]
        have e3 : (b.lectureId == l1) = false := by
          simp only [beq_eq_false_iff_ne, ne_eq]
          exact fun h => hne2 (hb.symm.trans h)
        simp only [writeLecture, e1, e2, e3, if_true, Bool.false_eq_true, if_false]
      · have e2 : (e.lectureId == l2) = false := by simp [h2]
        simp only [writeLecture, e1, e2, Bool.false_eq_true, if_false, ih]

theorem writeLecture_append_of_found (entries extra : List LectureProgress) (l : String)
    (a x : LectureProgress) (h : findLecture entries l = some x) :
    writeLecture (entries ++ extra) l a = writeLecture entries l a ++ extra := by
  induction entries with
  | nil => simp [findLecture] at h
  | cons e es ih =>
    by_cases h1 : e.lectureId = l
    · simp [writeLecture, h1]
    · have h2 : findLecture es l = some x := by
        unfold findLecture at h ⊢
        have hb : (e.lectureId == l) = false := by simp [h1]
        simpa [List.find?, hb] using h
      simp [writeLecture, h1, ih h2]

theorem contains_pushIfAbsent_of_ne (lc : List String) (l k : String) (hne : k ≠ l) :
    (pushIfAbsent lc l).contains k = lc.contains k := by
  unfold pushIfAbsent
  split
  · rfl
  · simp [hne]

theorem pushIfAbsent_comm_perm (lc : List String) (l1 l2 : String) (hne : l1 ≠ l2) :
    (pushIfAbsent (pushIfAbsent lc l1) l2).Perm (pushIfAbsent (pushIfAbsent lc l2) l1) := by
  have hne2 : ¬ l2 = l1 := fun h => hne h.symm
  by_cases h1 : l1 ∈ lc <;> by_cases h2 : l2 ∈ lc
  · have ea : pushIfAbsent (pushIfAbsent lc l1) l2 = lc := by simp [pushIfAbsent, h1, h2]
    have eb : pushIfAbsent (pushIfAbsent lc l2) l1 = lc := by simp [pushIfAbsent, h1, h2]
    rw [ea, eb]
  · have ea : pushIfAbsent (pushIfAbsent lc l1) l2 = lc ++ [l2] := by
      simp [pushIfAbsent, h1, h2]
    have eb : pushIfAbsent (pushIfAbsent lc l2) l1 = lc ++ [l2] := by
      simp [pushIfAbsent, h1, h2]
    rw [ea, eb]
  · have ea : pushIfAbsent (pushIfAbsent lc l1) l2 = lc ++ [l1] := by
      simp [pushIfAbsent, h1, h2]
    have eb : pushIfAbsent (pushIfAbsent lc l2) l1 = lc ++ [l1] := by
      simp [pushIfAbsent, h1, h2]
    rw [ea, eb]
  · have ea : pushIfAbsent (pushIfAbsent lc l1) l2 = lc ++ [l1, l2] := by
      simp [pushIfAbsent, h1, h2, hne, hne2]
    have eb : pushIfAbsent (pushIfAbsent lc l2) l1 = lc ++ [l2, l1] := by
      simp [pushIfAbsent, h1, h2, hne, hne2]
    rw [ea, eb]
    exact List.Perm.append_left lc (List.Perm.swap l2 l1 [])

theorem localEntry_reconcile_other (pd : CourseProgress) (l k : String) (w : ℚ)
    (td tk : Option ℚ) (hk : k ≠ l) :
    localEntry (reconcile pd l w td) k tk = localEntry pd k tk := by
  unfold localEntry
  rw [reconcile_entry_other pd l k w td hk]

/-- Lines 192-225 for two different lectures, in the two orders: the same
document up to the order of `lectureProgress` and of `lectureCompleted`. -/
theorem reconcile_comm_perm (pd : CourseProgress) (l1 l2 : String) (w1 w2 : ℚ)
    (t1 t2 : Option ℚ) (hne : l1 ≠ l2) :
    (reconcile (reconcile pd l1 w1 t1) l2 w2 t2).lectureProgress.Perm
        (reconcile (reconcile pd l2 w2 t2) l1 w1 t1).lectureProgress ∧
    (reconcile (reconcile pd l1 w1 t1) l2 w2 t2).lectureCompleted.Perm
        (reconcile (reconcile pd l2 w2 t2) l1 w1 t1).lectureCompleted := by
  constructor
  · rw [reconcile_lectureProgress (reconcile pd l1 w1 t1),
      reconcile_lectureProgress (reconcile pd l2 w2 t2),
      reconcile_entry_other pd l1 l2 w1 t1 (Ne.symm hne),
      reconcile_entry_other pd l2 l1 w2 t2 hne,
      reconcile_lectureProgress pd l1, reconcile_lectureProgress pd l2]
    cases h1 : findLecture pd.lectureProgress l1 with
    | some f1 =>
      have hid1 : (autoComplete (updateTimes f1 w1 t1)).lectureId = l1 := by
        rw [autoComplete_lectureId, updateTimes_lectureId]
        exact findLecture_some_id h1
      cases h2 : findLecture pd.lectureProgress l2 with
      | some f2 =>
        have hid2 : (autoComplete (updateTimes f2 w2 t2)).lectureId = l2 := by
          rw [autoComplete_lectureId, updateTimes_lectureId]
          exact findLecture_some_id h2
        dsimp only
        rw [writeLecture_comm _ _ _ _ _ hne hid1 hid2]
      | none =>
        dsimp only
        rw [writeLecture_append_of_found _ _ _ _ f1 h1]
    | none =>
      cases h2 : findLecture pd.lectureProgress l2 with
      | some f2 =>
        dsimp only
        rw [writeLecture_append_of_found _ _ _ _ f2 h2]
      | none =>
        dsimp only
        rw [List.append_assoc, List.append_assoc]
        exact List.Perm.append_left _ (List.Perm.swap _ _ [])
  · rw [reconcile_lectureCompleted (reconcile pd l1 w1 t1),
      reconcile_lectureCompleted (reconcile pd l2 w2 t2),
      localEntry_reconcile_other pd l1 l2 w1 t1 t2 (Ne.symm hne),
      localEntry_reconcile_other pd l2 l1 w2 t2 t1 hne,
      reconcile_lectureCompleted pd l1, reconcile_lectureCompleted pd l2]
    by_cases r1 : reachedThreshold (updateTimes (localEntry pd l1 t1) w1 t1) = true <;>
      by_cases r2 : reachedThreshold (updateTimes (localEntry pd l2 t2) w2 t2) = true
    · simp only [if_pos r1, if_pos r2]
      exact pushIfAbsent_comm_perm _ _ _ hne
    · simp only [if_pos r1, if_neg r2]
      exact List.Perm.refl _
    · simp only [if_neg r1, if_pos r2]
      exact List.Perm.refl _
    · simp only [if_neg r1, if_neg r2]
      exact List.Perm.refl _

/-- The document an accepted sample leaves is the one the next request loads. -/
theorem loadedRecord_updateWatchProgress (store : Store) (u : String) (body : WatchBody)
    (w : ℚ) (hu : u ≠ "" ∨ findOne store u body.courseId ≠ none)
    (hc : body.courseId ≠ "") (hl : body.lectureId ≠ "")
    (hw : body.watchTime = some w) :
    loadedRecord (updateWatchProgress store u body).1 u body.courseId =
      reconcile (loadedRecord store u body.courseId) body.lectureId w body.totalDuration := by
  conv_lhs => unfold loadedRecord
  rw [findOne_updateWatchProgress store u body w hu hc hl hw, if_pos ⟨rfl, rfl⟩]

end SkillSphere

/-! ## The store operations of a watch request -/

namespace SkillSphere

open userController

/-- The store that `updateWatchProgress` leaves is the one its accesses to the
collection produce, one after the other. -/
theorem updateWatchProgressOps_replay (store : Store) (u : String) (body : WatchBody) :
    (updateWatchProgressOps store u body).foldl applyOp store =
      (updateWatchProgress store u body).1 := by
  unfold updateWatchProgressOps updateWatchProgress
  cases body.watchTime with
  | none => rfl
  | some w =>
    dsimp only
    split
    · rfl
    · cases h : findOne store u body.courseId with
      | some pd => rfl
      | none =>
        dsimp only
        cases hc : create store (blankRecord u body.courseId) with
        | ok store1 =>
          have hc2 : create store
              { userId := u, courseId := body.courseId, completed := false,
                lectureCompleted := [], lectureProgress := [] } = Except.ok store1 := hc
          rw [hc2]
          simp only [List.foldl, applyOp, hc]
          rfl
        | error msg =>
          have hc2 : create store
              { userId := u, courseId := body.courseId, completed := false,
                lectureCompleted := [], lectureProgress := [] } = Except.error msg := hc
          rw [hc2]
          simp only [List.foldl, applyOp, hc]

end SkillSphere

/-! ## Invariants of the entries -/

namespace SkillSphere

open userController

theorem mem_writeLecture {entries : List LectureProgress} {l : String}
    {lp x : LectureProgress} (h : x ∈ writeLecture entries l lp) :
    x ∈ entries ∨ x = lp := by
  induction entries with
  | nil => simp [writeLecture] at h
  | cons e es ih =>
    simp only [writeLecture] at h
    split at h
    · rcases List.mem_cons.1 h with h2 | h2
      · exact Or.inr h2
      · exact Or.inl (List.mem_cons_of_mem _ h2)
    · rcases List.mem_cons.1 h with h2 | h2
      · exact Or.inl (h2 ▸ List.mem_cons_self _ _)
      · rcases ih h2 with h3 | h3
        · exact Or.inl (List.mem_cons_of_mem _ h3)
        · exact Or.inr h3

theorem findLecture_mem {entries : List LectureProgress} {l : String}
    {e : LectureProgress} (h : findLecture entries l = some e) : e ∈ entries :=
  List.mem_of_find?_eq_some h

/-- The entries of a document after lines 192-225: old entries, the entry found
with lines 208-219 applied, or the fresh entry. -/
theorem mem_reconcile_lectureProgress {pd : CourseProgress} {l : String} {w : ℚ}
    {td : Option ℚ} {x : LectureProgress}
    (h : x ∈ (reconcile pd l w td).lectureProgress) :
    x ∈ pd.lectureProgress ∨
      (∃ found, findLecture pd.lectureProgress l = some found ∧
        x = autoComplete (updateTimes found w td)) ∨
      (findLecture pd.lectureProgress l = none ∧ x = freshEntry l td) := by
  rw [reconcile_lectureProgress] at h
  cases hf : findLecture pd.lectureProgress l with
  | some found =>
    rw [hf] at h
    dsimp only at h
    rcases mem_writeLecture h with h2 | h2
    · exact Or.inl h2
    · exact Or.inr (Or.inl ⟨found, rfl, h2⟩)
  | none =>
    rw [hf] at h
    dsimp only at h
    rcases List.mem_append.1 h with h2 | h2
    · exact Or.inl h2
    · exact Or.inr (Or.inr ⟨rfl, List.mem_singleton.1 h2⟩)

/-- The entries of a document after lines 146-154: old entries, or the entry
found with `completed = true`. -/
theorem mem_markCompleted_lectureProgress {pd : CourseProgress} {l : String}
    {x : LectureProgress} (h : x ∈ (markCompleted pd l).lectureProgress) :
    x ∈ pd.lectureProgress ∨
      ∃ found, findLecture pd.lectureProgress l = some found ∧
        x = { found with completed := true } := by
  rw [markCompleted_lectureProgress] at h
  cases hf : findLecture pd.lectureProgress l with
  | some found =>
    rw [hf] at h
    dsimp only at h
    rcases mem_writeLecture h with h2 | h2
    · exact Or.inl h2
    · exact Or.inr ⟨found, rfl, h2⟩
  | none =>
    rw [hf] at h
    exact Or.inl h

theorem subset_reconcile_lectureCompleted (pd : CourseProgress) (l : String) (w : ℚ)
    (td : Option ℚ) {k : String} (hk : k ∈ pd.lectureCompleted) :
    k ∈ (reconcile pd l w td).lectureCompleted :=
  (keepsCompletion_reconcile pd l w td).2 k hk

end SkillSphere

/-! ## Store operations that can fail -/

namespace SkillSphere

open userController

/-- Without a fault the handler with fallible operations is `updateWatchProgress`. -/
theorem updateWatchProgressFallible_none (store : Store) (u : String) (body : WatchBody) :
    updateWatchProgressFallible none store u body = updateWatchProgress store u body := by
  unfold updateWatchProgressFallible updateWatchProgress
  cases body.watchTime with
  | none => rfl
  | some w =>
    dsimp only
    split
    · rfl
    · simp only [throwsAt]
      cases findOne store u body.courseId with
      | some pd => rfl
      | none =>
        rfl

/-- Without a fault the handler with fallible operations is
`updateUserCourseProgress`. -/
theorem updateUserCourseProgressFallible_none (store : Store) (u c l : String) :
    updateUserCourseProgressFallible none store u c l =
      updateUserCourseProgress store u c l := by
  unfold updateUserCourseProgressFallible updateUserCourseProgress
  simp only [throwsAt]
  cases findOne store u c with
  | some pd => rfl
  | none =>
    rfl

theorem throwsAt_self (f : Fault) : throwsAt (some f) f.op = some f.message := by
  simp [throwsAt]

theorem throwsAt_of_ne (f : Fault) (k : StoreOpKind) (h : f.op ≠ k) :
    throwsAt (some f) k = none := by
  simp [throwsAt, h]

end SkillSphere

/-! ## The sampling timer and the periodic tick -/

namespace SkillSphere

namespace Player

theorem clearCurrent_eq_nil (s : TimerState) (h : s.Coherent) : clearCurrent s = [] := by
  obtain ⟨_, hb, hl⟩ := h
  unfold clearCurrent
  rcases hl with hl | ⟨id, hid, hl⟩
  · rw [hl]
    cases s.progressUpdateInterval with
    | none => rfl
    | some id =>
      dsimp only
      split <;> simp [clearInterval]
  · rw [hid, hl]
    dsimp only
    have hpos : id ≠ 0 := Nat.pos_iff_ne_zero.1 (hb id hid).1
    rw [if_pos hpos]
    simp [clearInterval]

theorem coherent_initial : TimerState.initial.Coherent := by
  refine ⟨by decide, ?_, Or.inl rfl⟩
  intro id h
  cases h

theorem coherent_step (s : TimerState) (t : TimerStep) (h : s.Coherent) :
    (s.step t).Coherent := by
  have hnil := clearCurrent_eq_nil s h
  obtain ⟨hn, hb, _⟩ := h
  cases t with
  | playerReady =>
    refine ⟨Nat.succ_pos _, ?_, Or.inr ⟨s.nextId, rfl, ?_⟩⟩
    · intro id hid
      have : s.nextId = id := Option.some.inj hid
      subst this
      exact ⟨hn, Nat.lt_succ_self _⟩
    · show clearCurrent s ++ [s.nextId] = [s.nextId]
      rw [hnil]
      rfl
  | lectureSwitched =>
    refine ⟨hn, hb, Or.inl ?_⟩
    exact hnil

theorem coherent_run (steps : List TimerStep) (s : TimerState) (h : s.Coherent) :
    (s.run steps).Coherent := by
  induction steps generalizing s with
  | nil => exact h
  | cons t ts ih => exact ih (s.step t) (coherent_step s t h)

theorem run_append (s : TimerState) (xs ys : List TimerStep) :
    s.run (xs ++ ys) = (s.run xs).run ys := by
  unfold TimerState.run
  rw [List.foldl_append]

/-- The periodic tick lets no error propagate, and posts nothing when an
accessor throws. -/
theorem sampleTick_catches (userId courseId : String) (playerData : Option PlayerData)
    (player : YouTubePlayer) :
    (sampleTick userId courseId playerData player).thrown = none ∧
    ((∃ e, player.getCurrentTime = Except.error e) ∨
        (∃ e, player.getDuration = Except.error e) →
      (sampleTick userId courseId playerData player).requests = []) := by
  unfold sampleTick
  cases h1 : player.getCurrentTime with
  | error e => exact ⟨rfl, fun _ => rfl⟩
  | ok ct =>
    cases h2 : player.getDuration with
    | error e => exact ⟨rfl, fun _ => rfl⟩
    | ok td =>
      dsimp only
      constructor
      · split <;> rfl
      · rintro (⟨e, he⟩ | ⟨e, he⟩) <;> cases he

/-- On a player whose accessors return, `handlePlayerStateChangeOn` posts what
`handlePlayerStateChange` posts and throws nothing. -/
theorem handlePlayerStateChangeOn_ok (userId courseId : String)
    (playerData : Option PlayerData) (ct td : ℚ) (data : ℤ) :
    handlePlayerStateChangeOn userId courseId playerData
        (some { getCurrentTime := Except.ok ct, getDuration := Except.ok td }) data =
      { requests := handlePlayerStateChange userId courseId playerData (some ⟨ct, td⟩) data,
        thrown := none } := by
  unfold handlePlayerStateChangeOn handlePlayerStateChange
  split <;> rfl

end Player

end SkillSphere

/-! ## The file key of an upload -/

namespace SkillSphere

open videoController

/-- Every file key that `getVideoUploadUrlController` forms starts with
`courses/`. -/
theorem fileKeyOf_startsWith (timestamp : Nat) (body : UploadBody) :
    jsStartsWith (fileKeyOf timestamp body) "courses/" = true := by
  unfold jsStartsWith fileKeyOf
  rw [List.isPrefixOf_iff_prefix]
  simp only [String.data_append, List.append_assoc]
  exact List.prefix_append _ _

theorem fileKeyOf_ne_empty (timestamp : Nat) (body : UploadBody) :
    fileKeyOf timestamp body ≠ "" := by
  intro h
  have h2 := fileKeyOf_startsWith timestamp body
  rw [h] at h2
  exact absurd h2 (by decide)

/-- A file key of an upload is taken for an S3 video by the player exactly
when it does not contain `http`. -/
theorem isS3Video_fileKeyOf (timestamp : Nat) (body : UploadBody) :
    Player.isS3Video (fileKeyOf timestamp body) =
      !jsIncludes (fileKeyOf timestamp body) "http" := by
  unfold Player.isS3Video
  rw [if_neg (fileKeyOf_ne_empty timestamp body), fileKeyOf_startsWith]
  rfl

end SkillSphere

/-! ## The claims -/

namespace SkillSphere

open userController

/-- C1 (the code departs from it): on a record without an entry for the
lecture, a single sample with `watchTime = 50` leaves `watchTime = 0` stored,
and the samples `100` then `40` leave `40` stored, while the maxima of the
calls are `50` and `100`: the first sample of a lecture is written to the plain
object, not to the pushed subdocument. -/
theorem C1_first_sample_not_stored :
    (lectureEntry (serveAll [] [Request.watch "u" ⟨"c", "l", some 50, some 100⟩])
        "u" "c" "l").map (fun lp => lp.watchTime) = some 0 ∧
    (lectureEntry
        (serveAll []
          [Request.watch "u" ⟨"c", "l", some 100, some 300⟩,
            Request.watch "u" ⟨"c", "l", some 40, some 300⟩])
        "u" "c" "l").map (fun lp => lp.watchTime) = some 40 := by
  constructor <;> decide!

/-- C2 (the code departs from it): on the empty store lecture `l` is not yet
completed (no entry, id not in `lectureCompleted`). After the single sample
`(l, 95, 100)` its id is in `lectureCompleted`, while the stored entry has
`watchTime = 0` and `totalDuration = 100`, a stored ratio of `0`, and
`completed = false`: list membership does not follow the stored ratio, and the
flag and the list disagree. The threshold test of line 215 reads the plain
object, the stored entry is the subdocument that `push` made of it before the
assignments. The example of the claim does hold on the empty store: after
`(89, 100)` the flag is `false` and the id is not listed, after the following
`(90, 100)` the flag is `true` and the id is listed. -/
theorem C2_first_sample_listed_below_stored_threshold :
    (completedFlag [] "u" "c" "l" = false ∧ "l" ∉ lectureCompletedOf [] "u" "c") ∧
    ("l" ∈ lectureCompletedOf
        (updateWatchProgress [] "u" ⟨"c", "l", some 95, some 100⟩).1 "u" "c" ∧
      completedFlag
        (updateWatchProgress [] "u" ⟨"c", "l", some 95, some 100⟩).1 "u" "c" "l" = false ∧
      lectureEntry
        (updateWatchProgress [] "u" ⟨"c", "l", some 95, some 100⟩).1 "u" "c" "l" =
        some ⟨"l", 0, 100, false⟩) ∧
    (completedFlag
        (serveAll [] [Request.watch "u" ⟨"c", "l", some 89, some 100⟩]) "u" "c" "l" = false ∧
      "l" ∉ lectureCompletedOf
        (serveAll [] [Request.watch "u" ⟨"c", "l", some 89, some 100⟩]) "u" "c" ∧
      completedFlag
        (serveAll []
          [Request.watch "u" ⟨"c", "l", some 89, some 100⟩,
            Request.watch "u" ⟨"c", "l", some 90, some 100⟩]) "u" "c" "l" = true ∧
      "l" ∈ lectureCompletedOf
        (serveAll []
          [Request.watch "u" ⟨"c", "l", some 89, some 100⟩,
            Request.watch "u" ⟨"c", "l", some 90, some 100⟩]) "u" "c") := by
  refine ⟨⟨?_, ?_⟩, ⟨?_, ?_, ?_⟩, ⟨?_, ?_, ?_, ?_⟩⟩ <;> decide!

/-- C3: for every store and every `(userId, courseId, lectureId)`, a second
`updateUserCourseProgress` call leaves the store exactly as the first call left
it; and when `userId` and `courseId` are non-empty (the first call is accepted)
the second call answers `success = true` with "Lecture Already Completed". -/
theorem C3_manual_completion_idempotent (store : Store) (u c l : String) :
    (updateUserCourseProgress (updateUserCourseProgress store u c l).1 u c l).1 =
      (updateUserCourseProgress store u c l).1 ∧
    (u ≠ "" → c ≠ "" →
      (updateUserCourseProgress (updateUserCourseProgress store u c l).1 u c l).2 =
        ⟨true, "Lecture Already Completed"⟩) := by
  by_cases hok : (u ≠ "" ∧ c ≠ "") ∨ findOne store u c ≠ none
  · have h1 := findOne_updateUserCourseProgress store u c l hok u c
    rw [if_pos ⟨rfl, rfl⟩] at h1
    have h2 := updateUserCourseProgress_already _ u c l _ h1 (manualRecord_contains store u c l)
    rw [h2]
    exact ⟨rfl, fun _ _ => rfl⟩
  · have h1 := updateUserCourseProgress_rejected store u c l hok
    rw [h1, h1]
    exact ⟨rfl, fun hu hc => absurd (Or.inl ⟨hu, hc⟩) hok⟩

/-- C3, on the empty store. -/
theorem C3_manual_completion_idempotent_witness :
    ("u" : String) ≠ "" ∧ ("c" : String) ≠ "" ∧
    (updateUserCourseProgress (updateUserCourseProgress [] "u" "c" "l").1 "u" "c" "l").2 =
      ⟨true, "Lecture Already Completed"⟩ :=
  ⟨by decide, by decide,
    (C3_manual_completion_idempotent [] "u" "c" "l").2 (by decide) (by decide)⟩

/-- C4 (the code departs from it): on an empty store, the end of playback at
`watchTime = 50`, `totalDuration = 300` of lecture `l` puts `l` into
`lectureCompleted` through the `<video>` handler `handleVideoEnded`, which posts
the sample and then the manual completion, but not through the YouTube handler
`handlePlayerStateChange`, which posts the sample only. -/
theorem C4_youtube_end_does_not_complete :
    Player.handleVideoEnded "u" "c" (some ⟨"l"⟩) ⟨50, 300⟩ =
      [Request.watch "u" ⟨"c", "l", some 50, some 300⟩, Request.manual "u" "c" "l"] ∧
    "l" ∈ lectureCompletedOf
      (serveAll [] (Player.handleVideoEnded "u" "c" (some ⟨"l"⟩) ⟨50, 300⟩)) "u" "c" ∧
    Player.handlePlayerStateChange "u" "c" (some ⟨"l"⟩) (some ⟨50, 300⟩) 0 =
      [Request.watch "u" ⟨"c", "l", some 50, some 300⟩] ∧
    "l" ∉ lectureCompletedOf
      (serveAll [] (Player.handlePlayerStateChange "u" "c" (some ⟨"l"⟩) (some ⟨50, 300⟩) 0))
      "u" "c" := by
  refine ⟨?_, ?_, ?_, ?_⟩ <;> decide!

/-- C5 (the code departs from it): on an empty store the sample
`(l, watchTime = 50, totalDuration = 100)` creates a record with exactly one
entry, for `l`, whose `totalDuration` is `100` but whose `watchTime` is `0`, not
the reported `50`. -/
theorem C5_created_entry_has_zero_watchTime :
    (updateWatchProgress [] "u" ⟨"c", "l", some 50, some 100⟩).1 =
      [{ userId := "u", courseId := "c", completed := false, lectureCompleted := [],
         lectureProgress := [{ lectureId := "l", watchTime := 0, totalDuration := 100,
                               completed := false }] }] := by
  decide!

/-- C6 as stated fails: for a course of two lectures of 10 minutes and a record
whose entry for the first has `watchTime = 300` and a stored `totalDuration` of
`0`, `getCourseProgress` yields 25 percent (the `0` falls back to the authored
600 seconds), while the stated formula, which takes the stored `0`, yields
50 percent. -/
theorem C6_stored_zero_duration_counterexample :
    (MyEnrollments.getCourseProgress (fun _ => 2) sampleCourse (some sampleRecord)).progressPercent
        = 25 ∧
    MyEnrollments.specPercent sampleCourse (some sampleRecord) = 50 := by
  constructor <;> decide!

/-- C6 as amended: for every course and every progress record (or none), the
`progressPercent` of `getCourseProgress` is `clamp(100 * W / D, 0, 100)` when
`D > 0` and `0` otherwise, where `W` sums the stored `watchTime` of the lectures
that have an entry and `D` sums, over all lectures, the stored `totalDuration`
when the lecture has an entry with a non-zero one and `lectureDuration * 60`
otherwise. For two lectures authored at 10 and 20 minutes with stored watch
times 300 and 0 the result is `50 / 3`. -/
theorem C6_progressPercent_eq_fallbackPercent (calculateNoOfLectures : Course → Nat)
    (course : Course) (progressData : Option CourseProgress) :
    (MyEnrollments.getCourseProgress calculateNoOfLectures course progressData).progressPercent
        = MyEnrollments.fallbackPercent course progressData ∧
    (MyEnrollments.getCourseProgress calculateNoOfLectures
        { courseContent := [{ chapterContent := [⟨"a", 10⟩, ⟨"b", 20⟩] }] }
        (some
          { userId := "u", courseId := "c", completed := false, lectureCompleted := [],
            lectureProgress := [⟨"a", 300, 600, false⟩, ⟨"b", 0, 1200, false⟩] })).progressPercent
        = 50 / 3 := by
  constructor
  · unfold MyEnrollments.getCourseProgress MyEnrollments.fallbackPercent
    dsimp only
    rw [MyEnrollments.accumulate_eq]
    unfold MyEnrollments.rawPercent
    dsimp only
    split
    · rw [div_mul_eq_mul_div, mul_comm]
    · exact min_eq_right (by norm_num)
  · have h : ∀ (c : Course) (p : Option CourseProgress),
        (MyEnrollments.getCourseProgress calculateNoOfLectures c p).progressPercent =
          (MyEnrollments.getCourseProgress (fun _ => 0) c p).progressPercent :=
      fun _ _ => rfl
    rw [h]
    decide!

/-- In exact arithmetic, that is as long as no sum overflows, the
`progressPercent` of `getCourseProgress` lies between `0` and `100`, and it is
`0` whenever the accumulated total duration is not positive. -/
theorem progressPercent_clamped_exact (calculateNoOfLectures : Course → Nat)
    (course : Course) (progressData : Option CourseProgress) :
    0 ≤ (MyEnrollments.getCourseProgress calculateNoOfLectures course
          progressData).progressPercent ∧
    (MyEnrollments.getCourseProgress calculateNoOfLectures course
          progressData).progressPercent ≤ 100 ∧
    ((MyEnrollments.accumulate course progressData).totalDuration ≤ 0 →
      (MyEnrollments.getCourseProgress calculateNoOfLectures course
          progressData).progressPercent = 0) := by
  unfold MyEnrollments.getCourseProgress
  dsimp only
  refine ⟨(MyEnrollments.clamp_bounds _).1, (MyEnrollments.clamp_bounds _).2, ?_⟩
  intro h
  unfold MyEnrollments.rawPercent
  rw [if_neg (not_lt.2 h)]
  exact min_eq_right (by norm_num)

/-- C7 (the code departs from it): for a course of two lectures and a record
whose two entries each hold `watchTime = totalDuration = 10 ^ 308`, both sums
of `getCourseProgress` overflow to `Infinity`, the guard `totalDuration > 0`
holds, `Infinity / Infinity` is `NaN`, and `Math.min(100, Math.max(0, NaN))` is
`NaN`: the `progressPercent` is not a number between `0` and `100`. On the
example of the specification (10 and 20 minutes, 300 and 0 seconds watched) the
same computation gives `50 / 3`. -/
theorem C7_progressPercent_nan_on_overflow :
    MyEnrollments.accumulateJs sampleCourse (some hugeRecord) =
      ⟨JsNumber.posInfinity, JsNumber.posInfinity⟩ ∧
    MyEnrollments.rawPercentJs (MyEnrollments.accumulateJs sampleCourse (some hugeRecord)) =
      JsNumber.nan ∧
    MyEnrollments.progressPercentJs sampleCourse (some hugeRecord) = JsNumber.nan ∧
    MyEnrollments.progressPercentJs
        { courseContent := [{ chapterContent := [⟨"a", 10⟩, ⟨"b", 20⟩] }] }
        (some
          { userId := "u", courseId := "c", completed := false, lectureCompleted := [],
            lectureProgress := [⟨"a", 300, 600, false⟩, ⟨"b", 0, 1200, false⟩] }) =
      JsNumber.finite (50 / 3) := by
  refine ⟨?_, ?_, ?_, ?_⟩ <;> decide!

/-- C8: when the player becomes ready for the active lecture, each of the two
handlers (`handleVideoLoadedMetadata` for the `<video>` element,
`handlePlayerReady` for YouTube) seeks to a position `t` if and only if the
held progress has an entry for the active lecture with
`0 < watchTime < totalDuration` and `t` is its `watchTime`; the two handlers
decide alike on all inputs; a stored `(42, 300)` seeks to `42` and a stored
`(300, 300)` does not seek. -/
theorem C8_resume_decision (progressData : Option CourseProgress)
    (playerData : Player.PlayerData) (t : ℚ) :
    (Player.handleVideoLoadedMetadata progressData (some playerData) = some t ↔
      ∃ e, activeEntry progressData playerData = some e ∧
        0 < e.watchTime ∧ e.watchTime < e.totalDuration ∧ t = e.watchTime) ∧
    (Player.handlePlayerReady progressData (some playerData) = some t ↔
      ∃ e, activeEntry progressData playerData = some e ∧
        0 < e.watchTime ∧ e.watchTime < e.totalDuration ∧ t = e.watchTime) ∧
    (∀ pd : Option Player.PlayerData,
      Player.handlePlayerReady progressData pd =
        Player.handleVideoLoadedMetadata progressData pd) ∧
    (∀ b : Bool,
      Player.handleVideoLoadedMetadata
          (some ⟨"u", "c", false, [], [⟨playerData.lectureId, 42, 300, b⟩]⟩)
          (some playerData) = some 42 ∧
      Player.handleVideoLoadedMetadata
          (some ⟨"u", "c", false, [], [⟨playerData.lectureId, 300, 300, b⟩]⟩)
          (some playerData) = none) := by
  have key : ∀ entry : Option LectureProgress,
      Player.shouldResume entry = some t ↔
        ∃ e, entry = some e ∧ 0 < e.watchTime ∧ e.watchTime < e.totalDuration ∧
          t = e.watchTime := by
    intro entry
    unfold Player.shouldResume
    cases entry with
    | none => simp
    | some lp =>
      dsimp only
      constructor
      · intro h
        by_cases hc : lp.watchTime > 0 ∧ lp.watchTime < lp.totalDuration
        · rw [if_pos hc] at h
          exact ⟨lp, rfl, hc.1, hc.2, (Option.some.inj h).symm⟩
        · rw [if_neg hc] at h
          exact absurd h (by simp)
      · rintro ⟨e, he, h1, h2, h3⟩
        cases he
        rw [if_pos ⟨h1, h2⟩, h3]
  have hsame : ∀ pd : Option Player.PlayerData,
      Player.handlePlayerReady progressData pd =
        Player.handleVideoLoadedMetadata progressData pd := by
    intro pd
    unfold Player.handlePlayerReady Player.handleVideoLoadedMetadata
    rfl
  have hmeta : Player.handleVideoLoadedMetadata progressData (some playerData) =
      Player.shouldResume (activeEntry progressData playerData) := by
    unfold Player.handleVideoLoadedMetadata activeEntry
    cases progressData <;> rfl
  refine ⟨?_, ?_, hsame, ?_⟩
  · rw [hmeta]; exact key _
  · rw [hsame, hmeta]; exact key _
  · intro b
    constructor
    · simp [Player.handleVideoLoadedMetadata, findLecture, Player.shouldResume]
      norm_num
    · simp [Player.handleVideoLoadedMetadata, findLecture, Player.shouldResume]

/-- C9: for every store, every watch request and every stored entry, the
entry is still stored after `updateWatchProgress` and its `watchTime` is not
below the one stored before, whatever the sample is. -/
theorem C9_watchTime_never_regresses (store : Store) (u : String) (body : WatchBody)
    (u2 c2 l2 : String) (e : LectureProgress)
    (he : lectureEntry store u2 c2 l2 = some e) :
    ∃ e2, lectureEntry (updateWatchProgress store u body).1 u2 c2 l2 = some e2 ∧
      e.watchTime ≤ e2.watchTime := by
  rcases lectureEntry_updateWatchProgress_cases store u body u2 c2 l2 e he with h | h
  · exact ⟨e, h, le_refl _⟩
  · obtain ⟨w, -, -, -, -, h⟩ := h
    refine ⟨_, h, ?_⟩
    rw [autoComplete_watchTime, updateTimes_watchTime]
    exact le_max_left _ _

/-- C9, for the sample 40 arriving after 100 has been stored. -/
theorem C9_watchTime_never_regresses_witness :
    ∃ e2, lectureEntry
        (updateWatchProgress
          [⟨"u", "c", false, [], [⟨"l", 100, 300, false⟩]⟩] "u"
          ⟨"c", "l", some 40, some 300⟩).1 "u" "c" "l" = some e2 ∧
      (100 : ℚ) ≤ e2.watchTime :=
  C9_watchTime_never_regresses
    [⟨"u", "c", false, [], [⟨"l", 100, 300, false⟩]⟩] "u" ⟨"c", "l", some 40, some 300⟩
    "u" "c" "l" ⟨"l", 100, 300, false⟩ (by decide)

/-- C10: for every store and every sequence of `updateWatchProgress` and
`updateUserCourseProgress` requests, whatever their users, courses, lectures
and samples, an entry that has `completed = true` still has it after the
sequence, and a lecture id that is in `lectureCompleted` is still in it. -/
theorem C10_completion_sticky (store : Store) (requests : List Request)
    (u c l : String) :
    (completedFlag store u c l = true →
      completedFlag (serveAll store requests) u c l = true) ∧
    (l ∈ lectureCompletedOf store u c →
      l ∈ lectureCompletedOf (serveAll store requests) u c) := by
  constructor
  · intro h
    rw [completedFlag_eq_true_iff] at h ⊢
    obtain ⟨d, e, hd, he, hc⟩ := h
    obtain ⟨d2, hd2, hk⟩ := serveAll_keepsCompletion requests store u c d hd
    obtain ⟨e2, he2, hc2⟩ := hk.1 l e he hc
    exact ⟨d2, e2, hd2, he2, hc2⟩
  · intro h
    unfold lectureCompletedOf at h ⊢
    cases hd : findOne store u c with
    | none => rw [hd] at h; exact absurd h (by simp)
    | some d =>
      rw [hd] at h
      obtain ⟨d2, hd2, hk⟩ := serveAll_keepsCompletion requests store u c d hd
      rw [hd2]
      exact hk.2 l h

/-- C10, for a completed lecture whose later sample raises `totalDuration` so
that the watched fraction falls below the threshold. -/
theorem C10_completion_sticky_witness :
    completedFlag [⟨"u", "c", false, ["l"], [⟨"l", 90, 100, true⟩]⟩] "u" "c" "l" = true ∧
    completedFlag
      (serveAll [⟨"u", "c", false, ["l"], [⟨"l", 90, 100, true⟩]⟩]
        [Request.watch "u" ⟨"c", "l", some 91, some 1000⟩]) "u" "c" "l" = true :=
  ⟨by decide,
    (C10_completion_sticky [⟨"u", "c", false, ["l"], [⟨"l", 90, 100, true⟩]⟩]
      [Request.watch "u" ⟨"c", "l", some 91, some 1000⟩] "u" "c" "l").1 (by decide)⟩

/-- C11 (the code departs from it): from the empty store, a manual completion
of lecture `l` followed by the below-threshold sample `(l, 10, 100)` leaves `l`
in `lectureCompleted` with a `lectureProgress` entry whose `completed` flag is
`false`: `updateWatchProgress` creates the entry with `completed: false` without
looking at `lectureCompleted`. The same state is reached by a first sample
`(l, 95, 100)` alone, which passes the threshold on the plain object and adds
`l` to `lectureCompleted` while the pushed entry keeps `completed = false`. -/
theorem C11_completed_id_with_uncompleted_entry :
    ("l" ∈ lectureCompletedOf
        (serveAll []
          [Request.manual "u" "c" "l", Request.watch "u" ⟨"c", "l", some 10, some 100⟩])
        "u" "c" ∧
      (lectureEntry
        (serveAll []
          [Request.manual "u" "c" "l", Request.watch "u" ⟨"c", "l", some 10, some 100⟩])
        "u" "c" "l").isSome = true ∧
      completedFlag
        (serveAll []
          [Request.manual "u" "c" "l", Request.watch "u" ⟨"c", "l", some 10, some 100⟩])
        "u" "c" "l" = false) ∧
    ("l" ∈ lectureCompletedOf
        (serveAll [] [Request.watch "u" ⟨"c", "l", some 95, some 100⟩]) "u" "c" ∧
      (lectureEntry
        (serveAll [] [Request.watch "u" ⟨"c", "l", some 95, some 100⟩])
        "u" "c" "l").isSome = true ∧
      completedFlag
        (serveAll [] [Request.watch "u" ⟨"c", "l", some 95, some 100⟩]) "u" "c" "l" = false) := by
  refine ⟨⟨?_, ?_, ?_⟩, ⟨?_, ?_, ?_⟩⟩ <;> decide!

/-- C12: for every store and every `updateWatchProgress` or
`updateUserCourseProgress` request, if no document of the store has a duplicate
in `lectureCompleted` before the request, none has one after it; hence in every
store reached from the empty one by a sequence of such requests every lecture
id occurs at most once in every `lectureCompleted`. -/
theorem C12_lectureCompleted_unique (store : Store) (r : Request)
    (requests : List Request) :
    ((∀ d ∈ store, d.lectureCompleted.Nodup) →
      ∀ d ∈ serve store r, d.lectureCompleted.Nodup) ∧
    (∀ d ∈ serveAll [] requests, d.lectureCompleted.Nodup) ∧
    (∀ d ∈ serveAll [] requests, ∀ l, d.lectureCompleted.count l ≤ 1) := by
  have hrec : ∀ (pd : CourseProgress) (l : String) (w : ℚ) (td : Option ℚ),
      pd.lectureCompleted.Nodup → (reconcile pd l w td).lectureCompleted.Nodup := by
    intro pd l w td h
    rw [reconcile_lectureCompleted]
    split
    · exact nodup_pushIfAbsent _ _ h
    · exact h
  have hmark : ∀ (pd : CourseProgress) (l : String), pd.lectureCompleted.Nodup →
      pd.lectureCompleted.contains l = false → (markCompleted pd l).lectureCompleted.Nodup := by
    intro pd l h hin
    rw [markCompleted_lectureCompleted, List.nodup_append]
    refine ⟨h, List.nodup_singleton l, ?_⟩
    intro a ha hb
    rw [List.mem_singleton] at hb
    subst hb
    have : pd.lectureCompleted.contains a = true := by simpa using ha
    rw [hin] at this
    exact absurd this (by simp)
  have hblank : ∀ u c : String, (blankRecord u c).lectureCompleted.Nodup :=
    fun _ _ => List.nodup_nil
  have hnew : ∀ u c l : String, (createdByManual u c l).lectureCompleted.Nodup :=
    fun _ _ l => List.nodup_singleton l
  have hall : ∀ d ∈ serveAll [] requests, d.lectureCompleted.Nodup :=
    serveAll_preserves (fun d => d.lectureCompleted.Nodup) hrec hmark hblank hnew requests []
      (fun d hd => absurd hd (List.not_mem_nil d))
  refine ⟨?_, hall, ?_⟩
  · exact serve_preserves (fun d => d.lectureCompleted.Nodup) hrec hmark hblank hnew store r
  · intro d hd l
    exact List.nodup_iff_count_le_one.1 (hall d hd) l

/-- C12, for a manual completion of `l` on a record that has no completed lecture. -/
theorem C12_lectureCompleted_unique_witness :
    (∀ d ∈ sampleStore, d.lectureCompleted.Nodup) ∧
    (∀ d ∈ serve sampleStore (Request.manual "u" "c" "l"), d.lectureCompleted.Nodup) :=
  ⟨by decide,
    (C12_lectureCompleted_unique sampleStore (Request.manual "u" "c" "l") []).1 (by decide)⟩

/-- C13: for every store and every `updateWatchProgress` or
`updateUserCourseProgress` request, if no document of the store has two
`lectureProgress` entries with the same `lectureId` before the request, none
has after it; and an accepted sample for a lecture that has an entry leaves the
list of entry ids (and so the number of entries) as it was and replaces the
entry found by its state after lines 208-219. -/
theorem C13_lectureId_is_key (store : Store) (r : Request) (u : String)
    (body : WatchBody) (d : CourseProgress) (e : LectureProgress) (w : ℚ) :
    ((∀ x ∈ store, (x.lectureProgress.map (fun lp => lp.lectureId)).Nodup) →
      ∀ x ∈ serve store r, (x.lectureProgress.map (fun lp => lp.lectureId)).Nodup) ∧
    (findOne store u body.courseId = some d →
      findLecture d.lectureProgress body.lectureId = some e →
      body.courseId ≠ "" → body.lectureId ≠ "" → body.watchTime = some w →
      ∃ d2, findOne (updateWatchProgress store u body).1 u body.courseId = some d2 ∧
        d2.lectureProgress.map (fun lp => lp.lectureId) =
          d.lectureProgress.map (fun lp => lp.lectureId) ∧
        d2.lectureProgress.length = d.lectureProgress.length ∧
        findLecture d2.lectureProgress body.lectureId =
          some (autoComplete (updateTimes e w body.totalDuration))) := by
  constructor
  · apply serve_preserves (fun x => (x.lectureProgress.map (fun lp => lp.lectureId)).Nodup)
    · intro pd l w td h
      show ((reconcile pd l w td).lectureProgress.map (fun lp => lp.lectureId)).Nodup
      rw [reconcile_map_lectureId]
      cases hf : findLecture pd.lectureProgress l with
      | some found => exact h
      | none =>
        dsimp only
        rw [List.nodup_append]
        refine ⟨h, List.nodup_singleton l, ?_⟩
        intro a ha hb
        rw [List.mem_singleton] at hb
        subst hb
        exact (findLecture_eq_none_iff _ _).1 hf ha
    · intro pd l h _
      show ((markCompleted pd l).lectureProgress.map (fun lp => lp.lectureId)).Nodup
      rw [markCompleted_map_lectureId]
      exact h
    · intro _ _
      exact List.nodup_nil
    · intro _ _ _
      exact List.nodup_nil
  · intro hd he hc hl hw
    have hfound : findOne store u body.courseId ≠ none := by rw [hd]; simp
    have h1 := findOne_updateWatchProgress store u body w (Or.inr hfound) hc hl hw u
      body.courseId
    rw [if_pos ⟨rfl, rfl⟩] at h1
    have hload : loadedRecord store u body.courseId = d := by
      unfold loadedRecord; rw [hd]
    rw [hload] at h1
    refine ⟨_, h1, ?_, ?_, ?_⟩
    · rw [reconcile_map_lectureId, he]
    · have := congrArg List.length (reconcile_map_lectureId d body.lectureId w body.totalDuration)
      rw [he] at this
      simpa using this
    · rw [reconcile_entry_same, he]

/-- C13, for a sample on the lecture of `sampleStore` that has an entry. -/
theorem C13_lectureId_is_key_witness :
    ((∀ x ∈ sampleStore, (x.lectureProgress.map (fun lp => lp.lectureId)).Nodup) ∧
      (∀ x ∈ serve sampleStore (Request.watch "u" sampleBody),
        (x.lectureProgress.map (fun lp => lp.lectureId)).Nodup)) ∧
    ∃ d2, findOne (updateWatchProgress sampleStore "u" sampleBody).1 "u" "c" = some d2 ∧
      d2.lectureProgress.map (fun lp => lp.lectureId) = ["l"] ∧
      d2.lectureProgress.length = 1 ∧
      findLecture d2.lectureProgress "l" =
        some (autoComplete (updateTimes ⟨"l", 80, 100, false⟩ 95 (some 100))) :=
  ⟨⟨by decide,
      (C13_lectureId_is_key sampleStore (Request.watch "u" sampleBody) "u" sampleBody
        ⟨"u", "c", false, [], [⟨"l", 80, 100, false⟩]⟩ ⟨"l", 80, 100, false⟩ 95).1
        (by decide)⟩,
    (C13_lectureId_is_key sampleStore (Request.watch "u" sampleBody) "u" sampleBody
      ⟨"u", "c", false, [], [⟨"l", 80, 100, false⟩]⟩ ⟨"l", 80, 100, false⟩ 95).2
      (by decide) (by decide) (by decide) (by decide) rfl⟩

/-- C14 (the code departs from it): on the empty store the sample
`(l, 50, 100)` delivered once leaves `watchTime = 0` stored for `l`, delivered
twice it leaves `watchTime = 50`: the two stores differ, because the first
delivery writes to the plain object and only the second finds a stored entry. -/
theorem C14_duplicate_delivery_changes_store :
    (updateWatchProgress (updateWatchProgress [] "u" ⟨"c", "l", some 50, some 100⟩).1 "u"
        ⟨"c", "l", some 50, some 100⟩).1 ≠
      (updateWatchProgress [] "u" ⟨"c", "l", some 50, some 100⟩).1 ∧
    lectureEntry (updateWatchProgress [] "u" ⟨"c", "l", some 50, some 100⟩).1 "u" "c" "l" =
      some ⟨"l", 0, 100, false⟩ ∧
    lectureEntry
      (updateWatchProgress (updateWatchProgress [] "u" ⟨"c", "l", some 50, some 100⟩).1 "u"
        ⟨"c", "l", some 50, some 100⟩).1 "u" "c" "l" =
      some ⟨"l", 50, 100, false⟩ := by
  refine ⟨?_, ?_, ?_⟩ <;> decide!

/-- C16: for every stored entry and every accepted sample for its lecture,
the `totalDuration` stored after `updateWatchProgress` is the sample's when one
was supplied and is positive (also when it is smaller than the stored one), and
is the previously stored one when the sample's is absent or `0`. -/
theorem C16_totalDuration_rule (store : Store) (u : String) (body : WatchBody)
    (e : LectureProgress) (w : ℚ)
    (he : lectureEntry store u body.courseId body.lectureId = some e)
    (hc : body.courseId ≠ "") (hl : body.lectureId ≠ "") (hw : body.watchTime = some w) :
    ∃ e2, lectureEntry (updateWatchProgress store u body).1 u body.courseId body.lectureId
        = some e2 ∧
      (∀ t, body.totalDuration = some t → t > 0 → e2.totalDuration = t) ∧
      (body.totalDuration = none ∨ body.totalDuration = some 0 →
        e2.totalDuration = e.totalDuration) := by
  have h1 := lectureEntry_updateWatchProgress store u body w
    (Or.inr (findOne_ne_none_of_entry he)) hc hl hw
  rw [he] at h1
  refine ⟨_, h1, ?_, ?_⟩
  · intro t ht hpos
    rw [autoComplete_totalDuration, updateTimes_totalDuration, ht]
    have : truthy (some t) = true := by simp [truthy, ne_of_gt hpos]
    rw [if_pos this]
    rfl
  · intro h
    rw [autoComplete_totalDuration, updateTimes_totalDuration]
    rcases h with h | h <;> rw [h] <;> simp [truthy]

/-- C16, for a stored duration of 100 and a sample that reports 60. -/
theorem C16_totalDuration_rule_witness :
    ∃ e2, lectureEntry
        (updateWatchProgress sampleStore "u" ⟨"c", "l", some 10, some 60⟩).1 "u" "c" "l"
        = some e2 ∧
      (∀ t, (some 60 : Option ℚ) = some t → t > 0 → e2.totalDuration = t) ∧
      ((some 60 : Option ℚ) = none ∨ (some 60 : Option ℚ) = some 0 →
        e2.totalDuration = 100) :=
  C16_totalDuration_rule sampleStore "u" ⟨"c", "l", some 10, some 60⟩
    ⟨"l", 80, 100, false⟩ 10 (by decide) (by decide) (by decide) rfl

/-- C17: for every stored record whose `lectureCompleted` does not contain the
lecture, `updateUserCourseProgress` answers "Progress Updated" and leaves a
record whose `lectureCompleted` is the old one with the lecture appended (so it
occurs exactly once), whose entry for the lecture, when there is one, has
`completed = true` and the same `watchTime` and `totalDuration`, whose other
entries are as before, which has no new entry, and whose `userId`, `courseId`
and course-level `completed` are unchanged; the other records are as before. -/
theorem C17_manual_completion_frame (store : Store) (u c l : String)
    (d : CourseProgress) (hd : findOne store u c = some d)
    (hnot : l ∉ d.lectureCompleted) :
    (updateUserCourseProgress store u c l).2 = ⟨true, "Progress Updated"⟩ ∧
    (∃ d2, findOne (updateUserCourseProgress store u c l).1 u c = some d2 ∧
      d2.lectureCompleted = d.lectureCompleted ++ [l] ∧
      d2.lectureCompleted.count l = 1 ∧
      findLecture d2.lectureProgress l =
        (findLecture d.lectureProgress l).map (fun e => { e with completed := true }) ∧
      (∀ k, k ≠ l → findLecture d2.lectureProgress k = findLecture d.lectureProgress k) ∧
      d2.lectureProgress.map (fun lp => lp.lectureId) =
        d.lectureProgress.map (fun lp => lp.lectureId) ∧
      d2.lectureProgress.length = d.lectureProgress.length ∧
      d2.userId = d.userId ∧ d2.courseId = d.courseId ∧ d2.completed = d.completed) ∧
    (∀ u2 c2, ¬ (u2 = u ∧ c2 = c) →
      findOne (updateUserCourseProgress store u c l).1 u2 c2 = findOne store u2 c2) := by
  have hok : (u ≠ "" ∧ c ≠ "") ∨ findOne store u c ≠ none := Or.inr (by rw [hd]; simp)
  have hrec : manualRecord store u c l = markCompleted d l := by
    unfold manualRecord
    rw [hd]
    dsimp only
    rw [if_neg (by simpa using hnot)]
  refine ⟨?_, ?_, ?_⟩
  · rw [updateUserCourseProgress_fresh store u c l d hd hnot]
  · have h1 := findOne_updateUserCourseProgress store u c l hok u c
    rw [if_pos ⟨rfl, rfl⟩, hrec] at h1
    refine ⟨_, h1, markCompleted_lectureCompleted d l, ?_, ?_, ?_,
      markCompleted_map_lectureId d l, ?_, markCompleted_userId d l,
      markCompleted_courseId d l, markCompleted_completed d l⟩
    · rw [markCompleted_lectureCompleted, List.count_append, List.count_eq_zero_of_not_mem hnot]
      simp
    · rw [markCompleted_entry, if_pos rfl]
    · intro k hk
      rw [markCompleted_entry, if_neg hk]
    · have := congrArg List.length (markCompleted_map_lectureId d l)
      simpa using this
  · intro u2 c2 hx
    rw [findOne_updateUserCourseProgress store u c l hok u2 c2, if_neg hx]

/-- C17, for the manual completion of `l` on `sampleStore`. -/
theorem C17_manual_completion_frame_witness :
    (updateUserCourseProgress sampleStore "u" "c" "l").2 = ⟨true, "Progress Updated"⟩ :=
  (C17_manual_completion_frame sampleStore "u" "c" "l"
    ⟨"u", "c", false, [], [⟨"l", 80, 100, false⟩]⟩ (by decide) (by decide)).1

/-- C18: for every `(userId, courseId)` that has no stored record, both
non-empty, `updateUserCourseProgress` answers `success = true` and appends to
the store one record for `(userId, courseId)` whose `lectureCompleted` is
exactly `[lectureId]`, whose `lectureProgress` is empty and whose course-level
`completed` is `false`; it is the record then found for `(userId, courseId)`. -/
theorem C18_manual_completion_creates (store : Store) (u c l : String)
    (hnone : findOne store u c = none) (hu : u ≠ "") (hc : c ≠ "") :
    (updateUserCourseProgress store u c l).2 = ⟨true, "Progress Updated"⟩ ∧
    ∃ d, (updateUserCourseProgress store u c l).1 = store ++ [d] ∧
      findOne (updateUserCourseProgress store u c l).1 u c = some d ∧
      d.userId = u ∧ d.courseId = c ∧ d.lectureCompleted = [l] ∧
      d.lectureProgress = [] ∧ d.completed = false := by
  have h0 : updateUserCourseProgress store u c l =
      (store ++ [createdByManual u c l], ⟨true, "Progress Updated"⟩) := by
    unfold updateUserCourseProgress
    rw [hnone]
    simp [create, hu, hc, createdByManual]
  have h1 := findOne_updateUserCourseProgress store u c l (Or.inl ⟨hu, hc⟩) u c
  rw [if_pos ⟨rfl, rfl⟩] at h1
  have h2 : manualRecord store u c l = createdByManual u c l := by
    unfold manualRecord
    rw [hnone]
    rfl
  rw [h2] at h1
  refine ⟨by rw [h0], createdByManual u c l, by rw [h0], h1, rfl, rfl, rfl, rfl, rfl⟩

/-- C18, on the empty store. -/
theorem C18_manual_completion_creates_witness :
    (updateUserCourseProgress [] "u" "c" "l").2 = ⟨true, "Progress Updated"⟩ ∧
    ∃ d, (updateUserCourseProgress [] "u" "c" "l").1 = [] ++ [d] ∧
      findOne (updateUserCourseProgress [] "u" "c" "l").1 "u" "c" = some d ∧
      d.userId = "u" ∧ d.courseId = "c" ∧ d.lectureCompleted = ["l"] ∧
      d.lectureProgress = [] ∧ d.completed = false :=
  C18_manual_completion_creates [] "u" "c" "l" rfl (by decide) (by decide)

/-- C15: for every store and every two accepted samples for two different
lectures of the same `(userId, courseId)`, the two orders of the two
`updateWatchProgress` calls leave records for `(userId, courseId)` with the same
`userId`, `courseId` and course-level `completed`, whose `lectureProgress` are
permutations of each other and whose `lectureCompleted` are permutations of
each other; the other records are the same; and each call leaves the entry of
the other lecture as it was. -/
theorem C15_different_lectures_independent (store : Store) (u c l1 l2 : String)
    (w1 w2 : ℚ) (t1 t2 : Option ℚ) (hu : u ≠ "") (hc : c ≠ "") (hl1 : l1 ≠ "")
    (hl2 : l2 ≠ "") (hne : l1 ≠ l2) :
    (∃ dA dB,
      findOne
        (updateWatchProgress (updateWatchProgress store u ⟨c, l1, some w1, t1⟩).1 u
          ⟨c, l2, some w2, t2⟩).1 u c = some dA ∧
      findOne
        (updateWatchProgress (updateWatchProgress store u ⟨c, l2, some w2, t2⟩).1 u
          ⟨c, l1, some w1, t1⟩).1 u c = some dB ∧
      dA.userId = dB.userId ∧ dA.courseId = dB.courseId ∧ dA.completed = dB.completed ∧
      dA.lectureProgress.Perm dB.lectureProgress ∧
      dA.lectureCompleted.Perm dB.lectureCompleted) ∧
    (∀ u2 c2, ¬ (u2 = u ∧ c2 = c) →
      findOne
        (updateWatchProgress (updateWatchProgress store u ⟨c, l1, some w1, t1⟩).1 u
          ⟨c, l2, some w2, t2⟩).1 u2 c2 =
      findOne
        (updateWatchProgress (updateWatchProgress store u ⟨c, l2, some w2, t2⟩).1 u
          ⟨c, l1, some w1, t1⟩).1 u2 c2) ∧
    lectureEntry (updateWatchProgress store u ⟨c, l1, some w1, t1⟩).1 u c l2 =
      lectureEntry store u c l2 ∧
    lectureEntry (updateWatchProgress store u ⟨c, l2, some w2, t2⟩).1 u c l1 =
      lectureEntry store u c l1 := by
  have f1 := findOne_updateWatchProgress store u ⟨c, l1, some w1, t1⟩ w1 (Or.inl hu) hc hl1 rfl
  have f2 := findOne_updateWatchProgress store u ⟨c, l2, some w2, t2⟩ w2 (Or.inl hu) hc hl2 rfl
  have g1 := findOne_updateWatchProgress (updateWatchProgress store u ⟨c, l1, some w1, t1⟩).1
    u ⟨c, l2, some w2, t2⟩ w2 (Or.inl hu) hc hl2 rfl
  have g2 := findOne_updateWatchProgress (updateWatchProgress store u ⟨c, l2, some w2, t2⟩).1
    u ⟨c, l1, some w1, t1⟩ w1 (Or.inl hu) hc hl1 rfl
  have k1 := loadedRecord_updateWatchProgress store u ⟨c, l1, some w1, t1⟩ w1 (Or.inl hu)
    hc hl1 rfl
  have k2 := loadedRecord_updateWatchProgress store u ⟨c, l2, some w2, t2⟩ w2 (Or.inl hu)
    hc hl2 rfl
  dsimp only at f1 f2 g1 g2 k1 k2
  rw [k1] at g1
  rw [k2] at g2
  refine ⟨?_, ?_, ?_, ?_⟩
  · have a := g1 u c
    have b := g2 u c
    rw [if_pos ⟨rfl, rfl⟩] at a b
    refine ⟨_, _, a, b, ?_, ?_, ?_, ?_⟩
    · simp only [reconcile_userId]
    · simp only [reconcile_courseId]
    · simp only [reconcile_completed]
    · exact reconcile_comm_perm _ l1 l2 w1 w2 t1 t2 hne
  · intro u2 c2 hx
    rw [g1 u2 c2, g2 u2 c2, if_neg hx, if_neg hx, f1 u2 c2, f2 u2 c2, if_neg hx, if_neg hx]
  · have a := f1 u c
    rw [if_pos ⟨rfl, rfl⟩] at a
    conv_lhs => unfold lectureEntry
    rw [a]
    dsimp only
    rw [reconcile_entry_other _ _ _ _ _ (Ne.symm hne), ← lectureEntry_eq_loaded]
  · have b := f2 u c
    rw [if_pos ⟨rfl, rfl⟩] at b
    conv_lhs => unfold lectureEntry
    rw [b]
    dsimp only
    rw [reconcile_entry_other _ _ _ _ _ hne, ← lectureEntry_eq_loaded]

/-- C15, for samples on a stored lecture `l` and a new lecture `m`. -/
theorem C15_different_lectures_independent_witness :
    lectureEntry (updateWatchProgress sampleStore "u" ⟨"c", "l", some 95, some 100⟩).1
        "u" "c" "m" = lectureEntry sampleStore "u" "c" "m" ∧
    lectureEntry (updateWatchProgress sampleStore "u" ⟨"c", "m", some 7, some 50⟩).1
        "u" "c" "l" = lectureEntry sampleStore "u" "c" "l" :=
  (C15_different_lectures_independent sampleStore "u" "c" "l" "m" 95 7 (some 100) (some 50)
    (by decide) (by decide) (by decide) (by decide) (by decide)).2.2

/-- C19 as stated fails: the body `{courseId: "c", lectureId: "l", watchTime:
null}` has a `watchTime` that is not a number, yet on the empty store the
handler answers `success = true`, reads the collection, creates a record and
saves it: line 177 only tests `watchTime === undefined`. -/
theorem C19_null_watchTime_counterexample :
    (handleWatchRequest [] "u"
        ⟨some "c", some "l", JsonNumber.null, JsonNumber.undefined⟩).2 =
      ⟨true, "Watch progress updated"⟩ ∧
    handleWatchRequestOps [] "u"
        ⟨some "c", some "l", JsonNumber.null, JsonNumber.undefined⟩ =
      [StoreOp.findOne "u" "c", StoreOp.create (blankRecord "u" "c"),
        StoreOp.save
          { userId := "u", courseId := "c", completed := false, lectureCompleted := [],
            lectureProgress := [⟨"l", 0, 0, false⟩] }] ∧
    (handleWatchRequest [] "u"
        ⟨some "c", some "l", JsonNumber.null, JsonNumber.undefined⟩).1 ≠ [] := by
  refine ⟨?_, ?_, ?_⟩ <;> decide!

/-- C19 as amended: for every store and every request to `updateWatchProgress`
in which `courseId` or `lectureId` is missing or empty, or `watchTime` is
missing, the handler answers `success = false` with the message "Invalid data",
leaves the store as it was and performs no `findOne`, `create` or `save`. -/
theorem C19_invalid_sample_rejected (store : Store) (userId : String)
    (raw : WatchRequestBody)
    (h : raw.courseId = none ∨ raw.courseId = some "" ∨ raw.lectureId = none ∨
      raw.lectureId = some "" ∨ raw.watchTime = JsonNumber.undefined) :
    handleWatchRequest store userId raw = (store, ⟨false, "Invalid data"⟩) ∧
    handleWatchRequestOps store userId raw = [] := by
  unfold handleWatchRequest handleWatchRequestOps updateWatchProgress updateWatchProgressOps
  cases hw : (destructure raw).watchTime with
  | none => exact ⟨rfl, rfl⟩
  | some w =>
    dsimp only
    have hids : (destructure raw).courseId = "" ∨ (destructure raw).lectureId = "" := by
      rcases h with h | h | h | h | h
      · left; simp [destructure, idOrEmpty, h]
      · left; simp [destructure, idOrEmpty, h]
      · right; simp [destructure, idOrEmpty, h]
      · right; simp [destructure, idOrEmpty, h]
      · simp [destructure, asWatchTime, h] at hw
    rw [if_pos hids, if_pos hids]
    exact ⟨rfl, rfl⟩

/-- C19 as amended, for a body without `watchTime` on `sampleStore`. -/
theorem C19_invalid_sample_rejected_witness :
    handleWatchRequest sampleStore "u"
        ⟨some "c", some "l", JsonNumber.undefined, JsonNumber.number 100⟩ =
      (sampleStore, ⟨false, "Invalid data"⟩) ∧
    handleWatchRequestOps sampleStore "u"
        ⟨some "c", some "l", JsonNumber.undefined, JsonNumber.number 100⟩ = [] :=
  C19_invalid_sample_rejected sampleStore "u"
    ⟨some "c", some "l", JsonNumber.undefined, JsonNumber.number 100⟩
    (Or.inr (Or.inr (Or.inr (Or.inr rfl))))

/-- C20 (the code departs from it): `updateUserCourseProgress` checks none of
its identifiers. With a falsy `lectureId` (the empty string, the falsy
identifier of the embedding) on a store that holds a record for the user and
the course, it answers "Progress Updated" and appends that `lectureId` to
`lectureCompleted`; on the empty store it answers "Progress Updated" and creates
a record. `updateWatchProgress` rejects the same identifier. -/
theorem C20_falsy_lectureId_accepted :
    updateUserCourseProgress sampleStore "u" "c" "" =
      ([{ userId := "u", courseId := "c", completed := false, lectureCompleted := [""],
          lectureProgress := [⟨"l", 80, 100, false⟩] }],
        ⟨true, "Progress Updated"⟩) ∧
    updateUserCourseProgress [] "u" "c" "" =
      ([{ userId := "u", courseId := "c", completed := false, lectureCompleted := [""],
          lectureProgress := [] }],
        ⟨true, "Progress Updated"⟩) ∧
    updateWatchProgress sampleStore "u" ⟨"c", "", some 10, some 100⟩ =
      (sampleStore, ⟨false, "Invalid data"⟩) := by
  refine ⟨?_, ?_, ?_⟩ <;> decide!

/-- C26: in every store reached from the empty one by a sequence of
`updateWatchProgress` and `updateUserCourseProgress` requests, with any numeric
`watchTime` in the samples (also a negative one), every `lectureProgress` entry
has `watchTime ≥ 0`; for instance a first sample of `-5` and a second of `-3`
leave `0` stored. -/
theorem C26_watchTime_nonnegative (requests : List Request) :
    (∀ d ∈ serveAll [] requests, ∀ e ∈ d.lectureProgress, 0 ≤ e.watchTime) ∧
    lectureEntry
      (serveAll []
        [Request.watch "u" ⟨"c", "l", some (-5), some 100⟩,
          Request.watch "u" ⟨"c", "l", some (-3), some 100⟩]) "u" "c" "l" =
      some ⟨"l", 0, 100, false⟩ := by
  constructor
  · apply serveAll_preserves (fun d => ∀ e ∈ d.lectureProgress, 0 ≤ e.watchTime)
    · intro pd l w td h x hx
      rcases mem_reconcile_lectureProgress hx with h2 | ⟨found, hf, h2⟩ | ⟨-, h2⟩
      · exact h x h2
      · rw [h2, autoComplete_watchTime, updateTimes_watchTime]
        exact le_trans (h found (findLecture_mem hf)) (le_max_left _ _)
      · rw [h2]
        exact le_refl _
    · intro pd l h _ x hx
      rcases mem_markCompleted_lectureProgress hx with h2 | ⟨found, hf, h2⟩
      · exact h x h2
      · rw [h2]
        exact h found (findLecture_mem hf)
    · intro _ _ x hx
      exact absurd hx (List.not_mem_nil x)
    · intro _ _ _ x hx
      exact absurd hx (List.not_mem_nil x)
    · intro d hd
      exact absurd hd (List.not_mem_nil d)
  · decide!

/-- C27: for every stored record and every accepted sample,
`updateWatchProgress` leaves a record with the same `userId`, `courseId` and
course-level `completed`, in which the entry of every lecture other than the
reported one is as before and whose `lectureCompleted` is the old one or the
old one with the reported lecture appended; the other records are as before. -/
theorem C27_watch_sample_frame (store : Store) (u : String) (body : WatchBody)
    (d : CourseProgress) (w : ℚ) (hd : findOne store u body.courseId = some d)
    (hc : body.courseId ≠ "") (hl : body.lectureId ≠ "") (hw : body.watchTime = some w) :
    (∃ d2, findOne (updateWatchProgress store u body).1 u body.courseId = some d2 ∧
      d2.userId = d.userId ∧ d2.courseId = d.courseId ∧ d2.completed = d.completed ∧
      (∀ k, k ≠ body.lectureId →
        findLecture d2.lectureProgress k = findLecture d.lectureProgress k) ∧
      (d2.lectureCompleted = d.lectureCompleted ∨
        d2.lectureCompleted = d.lectureCompleted ++ [body.lectureId])) ∧
    (∀ u2 c2, ¬ (u2 = u ∧ c2 = body.courseId) →
      findOne (updateWatchProgress store u body).1 u2 c2 = findOne store u2 c2) := by
  have hfound : findOne store u body.courseId ≠ none := by rw [hd]; simp
  have h1 := findOne_updateWatchProgress store u body w (Or.inr hfound) hc hl hw
  have hload : loadedRecord store u body.courseId = d := by
    unfold loadedRecord; rw [hd]
  rw [hload] at h1
  constructor
  · have h2 := h1 u body.courseId
    rw [if_pos ⟨rfl, rfl⟩] at h2
    refine ⟨_, h2, reconcile_userId _ _ _ _, reconcile_courseId _ _ _ _,
      reconcile_completed _ _ _ _, ?_, ?_⟩
    · intro k hk
      exact reconcile_entry_other d body.lectureId k w body.totalDuration hk
    · rw [reconcile_lectureCompleted]
      split
      · unfold pushIfAbsent
        split
        · exact Or.inl rfl
        · exact Or.inr rfl
      · exact Or.inl rfl
  · intro u2 c2 hx
    rw [h1 u2 c2, if_neg hx]

/-- C27, for the sample of 95 of 100 seconds on `sampleStore`. -/
theorem C27_watch_sample_frame_witness :
    findOne sampleStore "u" "c" = some ⟨"u", "c", false, [], [⟨"l", 80, 100, false⟩]⟩ ∧
    (∃ d2, findOne (updateWatchProgress sampleStore "u" sampleBody).1 "u" "c" = some d2 ∧
      d2.userId = "u" ∧ d2.courseId = "c" ∧ d2.completed = false ∧
      (∀ k, k ≠ "l" →
        findLecture d2.lectureProgress k =
          findLecture [(⟨"l", 80, 100, false⟩ : LectureProgress)] k) ∧
      (d2.lectureCompleted = [] ∨ d2.lectureCompleted = [] ++ ["l"])) ∧
    findOne (updateWatchProgress sampleStore "u" sampleBody).1 "v" "c" =
      findOne sampleStore "v" "c" :=
  ⟨by decide,
    (C27_watch_sample_frame sampleStore "u" sampleBody
      ⟨"u", "c", false, [], [⟨"l", 80, 100, false⟩]⟩ 95 (by decide) (by decide) (by decide)
      rfl).1,
    (C27_watch_sample_frame sampleStore "u" sampleBody
      ⟨"u", "c", false, [], [⟨"l", 80, 100, false⟩]⟩ 95 (by decide) (by decide) (by decide)
      rfl).2 "v" "c" (by decide)⟩

/-- C28: in every store reached from the empty one by a sequence of
`updateWatchProgress` and `updateUserCourseProgress` requests, every
`lectureProgress` entry with `completed = true` has its `lectureId` in the
`lectureCompleted` of its record. -/
theorem C28_completed_entry_is_listed (requests : List Request) :
    ∀ d ∈ serveAll [] requests, ∀ e ∈ d.lectureProgress,
      e.completed = true → e.lectureId ∈ d.lectureCompleted := by
  apply serveAll_preserves
    (fun d => ∀ e ∈ d.lectureProgress, e.completed = true → e.lectureId ∈ d.lectureCompleted)
  · intro pd l w td h x hx hcomp
    rcases mem_reconcile_lectureProgress hx with h2 | ⟨found, hf, h2⟩ | ⟨-, h2⟩
    · exact subset_reconcile_lectureCompleted pd l w td (h x h2 hcomp)
    · have hid : x.lectureId = l := by
        rw [h2, autoComplete_lectureId, updateTimes_lectureId]
        exact findLecture_some_id hf
      rw [hid]
      rw [h2, autoComplete_completed, updateTimes_completed] at hcomp
      by_cases hfc : found.completed = true
      · have := h found (findLecture_mem hf) hfc
        rw [findLecture_some_id hf] at this
        exact subset_reconcile_lectureCompleted pd l w td this
      · have hr : reachedThreshold (updateTimes found w td) = true := by
          simpa [hfc] using hcomp
        rw [reconcile_lectureCompleted]
        have hloc : localEntry pd l td = found := by
          unfold localEntry; rw [hf]
        rw [hloc, if_pos hr]
        exact (mem_pushIfAbsent _ _ _).2 (Or.inr rfl)
    · rw [h2] at hcomp
      exact absurd hcomp (by simp [freshEntry])
  · intro pd l h _ x hx hcomp
    rw [markCompleted_lectureCompleted]
    rcases mem_markCompleted_lectureProgress hx with h2 | ⟨found, hf, h2⟩
    · exact List.mem_append_left _ (h x h2 hcomp)
    · have hid0 : found.lectureId = l := findLecture_some_id hf
      have hid : x.lectureId = l := by
        rw [h2]
        exact hid0
      rw [hid]
      exact List.mem_append_right _ (List.mem_singleton.2 rfl)
  · intro _ _ x hx
    exact absurd hx (List.not_mem_nil x)
  · intro _ _ _ x hx
    exact absurd hx (List.not_mem_nil x)
  · intro d hd
    exact absurd hd (List.not_mem_nil d)

/-- C21 as stated fails: on the empty store the accepted sample
`(l, 50, 100)` persists a record for `("u", "c")`, but the object that
`updateWatchProgress` answers with has the keys `success` and `message` only:
it carries no `progressData`. -/
theorem C21_response_without_progressData_counterexample :
    (updateWatchProgress [] "u" ⟨"c", "l", some 50, some 100⟩).2.toBody =
      { success := true, message := some "Watch progress updated", progressData := none } ∧
    findOne (updateWatchProgress [] "u" ⟨"c", "l", some 50, some 100⟩).1 "u" "c" =
      some
        { userId := "u", courseId := "c", completed := false, lectureCompleted := [],
          lectureProgress := [⟨"l", 0, 100, false⟩] } ∧
    (updateWatchProgress [] "u" ⟨"c", "l", some 50, some 100⟩).2.toBody.progressData ≠
      some (findOne (updateWatchProgress [] "u" ⟨"c", "l", some 50, some 100⟩).1 "u" "c") := by
  refine ⟨?_, ?_, ?_⟩ <;> decide!

/-- C21 as amended: for every store and every accepted sample (non-empty
`userId`, `courseId` and `lectureId`, `watchTime` present), the response of
`updateWatchProgress` is `success = true` with the message "Watch progress
updated" and without `progressData`; the record as persisted by the call is the
`progressData` that `getUserCourseProgress` answers with for the same
`(userId, courseId)` right after. -/
theorem C21_persisted_record_by_getUserCourseProgress (store : Store) (u : String)
    (body : WatchBody) (w : ℚ) (hu : u ≠ "") (hc : body.courseId ≠ "")
    (hl : body.lectureId ≠ "") (hw : body.watchTime = some w) :
    (updateWatchProgress store u body).2.toBody =
      { success := true, message := some "Watch progress updated", progressData := none } ∧
    getUserCourseProgress (updateWatchProgress store u body).1 u body.courseId =
      { success := true, message := none,
        progressData :=
          some (some (reconcile (loadedRecord store u body.courseId) body.lectureId w
            body.totalDuration)) } := by
  constructor
  · unfold updateWatchProgress
    rw [hw]
    dsimp only
    rw [if_neg (by simp [hc, hl])]
    cases findOne store u body.courseId with
    | some pd => rfl
    | none => simp [create, hu, hc, Response.toBody]
  · unfold getUserCourseProgress
    rw [findOne_updateWatchProgress store u body w (Or.inl hu) hc hl hw, if_pos ⟨rfl, rfl⟩]

/-- C21 as amended, for the sample of 95 of 100 seconds on `sampleStore`. -/
theorem C21_persisted_record_by_getUserCourseProgress_witness :
    (updateWatchProgress sampleStore "u" sampleBody).2.toBody =
      { success := true, message := some "Watch progress updated", progressData := none } :=
  (C21_persisted_record_by_getUserCourseProgress sampleStore "u" sampleBody 95
    (by decide) (by decide) (by decide) rfl).1

/-- C22 as stated fails: on the empty store, when `save` rejects during an
accepted `updateWatchProgress`, the handler answers the failure, but the record
that `create` wrote before is in the store: the store after the call is not the
store before it. -/
theorem C22_failed_save_after_create_counterexample :
    updateWatchProgressFallible (some ⟨StoreOpKind.save, "store unavailable"⟩) [] "u"
        ⟨"c", "l", some 50, some 100⟩ =
      ([blankRecord "u" "c"], ⟨false, "store unavailable"⟩) ∧
    (updateWatchProgressFallible (some ⟨StoreOpKind.save, "store unavailable"⟩) [] "u"
        ⟨"c", "l", some 50, some 100⟩).1 ≠ [] := by
  constructor <;> decide!

/-- C22 as amended: for every store, every `updateWatchProgress` or
`updateUserCourseProgress` request and every store operation of that request
that rejects, the handler answers `success = false` with the error message, and
the store after the call is the store before it, except when the `save` of
`updateWatchProgress` rejects after the handler created the record: then the
store after the call is the store before it with the new empty record for
`(userId, courseId)` appended. -/
theorem C22_store_failure (f : Fault) (store : Store) (r : Request)
    (hhit : f.op ∈ (requestOps store r).map StoreOp.kind) :
    (serveFallible (some f) store r).2 = ⟨false, f.message⟩ ∧
    ((serveFallible (some f) store r).1 = store ∨
      ∃ u body, r = Request.watch u body ∧ f.op = StoreOpKind.save ∧
        findOne store u body.courseId = none ∧
        (serveFallible (some f) store r).1 = store ++ [blankRecord u body.courseId]) := by
  obtain ⟨op, msg⟩ := f
  cases r with
  | watch u body =>
    simp only [serveFallible, requestOps, updateWatchProgressOps,
      updateWatchProgressFallible] at hhit ⊢
    cases hw : body.watchTime with
    | none => rw [hw] at hhit; simp at hhit
    | some w =>
      rw [hw] at hhit
      dsimp only at hhit ⊢
      by_cases hids : body.courseId = "" ∨ body.lectureId = ""
      · rw [if_pos hids] at hhit; simp at hhit
      · rw [if_neg hids] at hhit ⊢
        cases hf : findOne store u body.courseId with
        | some pd =>
          rw [hf] at hhit
          cases op <;> simp [throwsAt, StoreOp.kind] at hhit ⊢
        | none =>
          rw [hf] at hhit
          by_cases hu : u = ""
          · cases op <;> simp [throwsAt, StoreOp.kind, create, blankRecord, hu] at hhit ⊢
          · have hcne : body.courseId ≠ "" := fun h => hids (Or.inl h)
            cases op
            · simp [throwsAt]
            · simp [throwsAt]
            · have hcreate : create store (blankRecord u body.courseId) =
                  Except.ok (store ++ [blankRecord u body.courseId]) := by
                simp [create, blankRecord, hu, hcne]
              rw [hcreate]
              simp only [throwsAt, reduceCtorEq, if_false, if_true]
              exact ⟨by trivial, Or.inr ⟨u, body, by trivial, by trivial, hf, by trivial⟩⟩
  | manual u c l =>
    simp only [serveFallible, requestOps, updateUserCourseProgressOps,
      updateUserCourseProgressFallible] at hhit ⊢
    cases hf : findOne store u c with
    | some pd =>
      rw [hf] at hhit
      dsimp only at hhit ⊢
      by_cases hin : pd.lectureCompleted.contains l = true
      · rw [if_pos hin] at hhit
        cases op <;> simp [throwsAt, StoreOp.kind] at hhit ⊢
      · rw [if_neg hin] at hhit
        have hin2 : l ∉ pd.lectureCompleted := by simpa using hin
        cases op <;> simp [throwsAt, StoreOp.kind, hin2] at hhit ⊢
    | none =>
      rw [hf] at hhit
      cases op <;> simp [throwsAt, StoreOp.kind] at hhit ⊢

/-- C22 as amended, for a `findOne` that rejects on `sampleStore`. -/
theorem C22_store_failure_witness :
    (serveFallible (some ⟨StoreOpKind.findOne, "store unavailable"⟩) sampleStore
      (Request.watch "u" sampleBody)).2 = ⟨false, "store unavailable"⟩ :=
  (C22_store_failure ⟨StoreOpKind.findOne, "store unavailable"⟩ sampleStore
    (Request.watch "u" sampleBody) (by decide)).1

/-- C23 (the code departs from it): three `timeupdate` events of the `<video>`
element that fire a quarter of a second apart while `currentTime` is 5, 5.25
and 5.5 each post the watch sample `(5, 300)`: the condition of line 233 holds
for every event of the second in which `floor(currentTime)` is a multiple of 5,
so consecutive reports are a quarter of a second apart, not 5 seconds. -/
theorem C23_timeupdate_reports_within_one_second :
    Player.reportTimes "u" "c" (some ⟨"l"⟩)
        [⟨0, ⟨4, 5, 300⟩⟩, ⟨1 / 4, ⟨4, 21 / 4, 300⟩⟩, ⟨1 / 2, ⟨4, 11 / 2, 300⟩⟩] =
      [0, 1 / 4, 1 / 2] ∧
    Player.handleVideoTimeUpdate "u" "c" (some ⟨"l"⟩) ⟨4, 5, 300⟩ =
      [Request.watch "u" ⟨"c", "l", some 5, some 300⟩] ∧
    Player.handleVideoTimeUpdate "u" "c" (some ⟨"l"⟩) ⟨4, 21 / 4, 300⟩ =
      [Request.watch "u" ⟨"c", "l", some 5, some 300⟩] := by
  refine ⟨?_, ?_, ?_⟩ <;> decide!

/-- C24 (the code departs from it): when `getCurrentTime()` throws at an
"ended" event, `handlePlayerStateChange` posts no sample but lets the error
propagate, because it calls the accessors outside any `try`; the periodic tick
on the same player catches the error and ends normally. -/
theorem C24_ended_handler_propagates_error :
    Player.handlePlayerStateChangeOn "u" "c" (some ⟨"l"⟩)
        (some { getCurrentTime := Except.error "player not ready",
                getDuration := Except.ok 300 }) 0 =
      { requests := [], thrown := some "player not ready" } ∧
    Player.sampleTick "u" "c" (some ⟨"l"⟩)
        { getCurrentTime := Except.error "player not ready", getDuration := Except.ok 300 } =
      { requests := [], thrown := none } := by
  constructor <;> rfl

/-- C25: from the mounted player, after every finite sequence of the steps
'player ready' and 'lecture switched / unmounted', at most one sampling timer
is live, and it is the one whose id the ref holds; right after a 'lecture
switched / unmounted' step no timer is live. -/
theorem C25_at_most_one_timer (steps : List Player.TimerStep) :
    (Player.TimerState.initial.run steps).live.length ≤ 1 ∧
    (∀ t ∈ (Player.TimerState.initial.run steps).live,
      (Player.TimerState.initial.run steps).progressUpdateInterval = some t) ∧
    (Player.TimerState.initial.run
      (steps ++ [Player.TimerStep.lectureSwitched])).live = [] := by
  have h := Player.coherent_run steps Player.TimerState.initial Player.coherent_initial
  refine ⟨?_, ?_, ?_⟩
  · rcases h.2.2 with hl | ⟨id, _, hl⟩ <;> rw [hl] <;> simp
  · intro t ht
    rcases h.2.2 with hl | ⟨id, hid, hl⟩
    · rw [hl] at ht
      exact absurd ht (List.not_mem_nil t)
    · rw [hl] at ht
      rw [List.mem_singleton.1 ht]
      exact hid
  · rw [Player.run_append]
    exact Player.clearCurrent_eq_nil _ h

/-- C29 (the code departs from it): a request without an authenticated user
(`getAuthUserId` returns `null`), with one file key and a `courseId`, is
answered with `success = true` and a presigned URL, because the enrollment check
of lines 177-185 is skipped when `userId` is falsy; an authenticated user who
is not enrolled is refused. -/
theorem C29_unauthenticated_batch_gets_urls :
    videoController.getBatchVideoStreamUrlsController
        [⟨"u", ["c"]⟩, ⟨"v", []⟩] samplePresign none
        ⟨some ["courses/c/chapters/a/lectures/b.mp4"], "c"⟩ =
      ⟨true, none,
        some [("courses/c/chapters/a/lectures/b.mp4",
          samplePresign "courses/c/chapters/a/lectures/b.mp4")]⟩ ∧
    videoController.getBatchVideoStreamUrlsController
        [⟨"u", ["c"]⟩, ⟨"v", []⟩] samplePresign (some "v")
        ⟨some ["courses/c/chapters/a/lectures/b.mp4"], "c"⟩ =
      ⟨false, some "You must be enrolled to access these videos", none⟩ := by
  constructor <;> decide

/-- C30 (the code departs from it): the accepted upload request with
`chapterId = "kq3http9"` gets the file key
`courses/temp/chapters/kq3http9/lectures/lec1.mp4`, and the accepted request
for the file `clip.http` gets `courses/temp/chapters/default/lectures/17.http`;
both keys contain `http`, so `isS3Video` is `false` for them and `playLecture`
takes the plain-URL path, not the S3 stream-url path. -/
theorem C30_uploaded_key_not_recognised :
    videoController.getVideoUploadUrlController (fun _ _ => false) samplePresignUpload 17 none
        ⟨"intro.mp4", "video/mp4", "temp", "kq3http9", "lec1"⟩ =
      ⟨true, none,
        some (samplePresignUpload "courses/temp/chapters/kq3http9/lectures/lec1.mp4"
          "video/mp4"),
        some "courses/temp/chapters/kq3http9/lectures/lec1.mp4"⟩ ∧
    Player.isS3Video "courses/temp/chapters/kq3http9/lectures/lec1.mp4" = false ∧
    Player.videoTypeOf "courses/temp/chapters/kq3http9/lectures/lec1.mp4" =
      some Player.VideoType.url ∧
    (videoController.getVideoUploadUrlController (fun _ _ => false) samplePresignUpload 17 none
        ⟨"clip.http", "video/mp4", "temp", "", ""⟩).fileKey =
      some "courses/temp/chapters/default/lectures/17.http" ∧
    Player.videoTypeOf "courses/temp/chapters/default/lectures/17.http" =
      some Player.VideoType.url := by
  refine ⟨?_, ?_, ?_, ?_, ?_⟩ <;> decide

/-- C28, for the record left by a sample without duration followed by a manual
completion of the same lecture. -/
theorem C28_completed_entry_is_listed_witness :
    (⟨"u", "c", false, ["l"], [⟨"l", 0, 0, true⟩]⟩ : CourseProgress) ∈
        serveAll []
          [Request.watch "u" ⟨"c", "l", some 0, none⟩, Request.manual "u" "c" "l"] ∧
    "l" ∈ (⟨"u", "c", false, ["l"], [⟨"l", 0, 0, true⟩]⟩ : CourseProgress).lectureCompleted :=
  ⟨by decide,
    C28_completed_entry_is_listed
      [Request.watch "u" ⟨"c", "l", some 0, none⟩, Request.manual "u" "c" "l"]
      ⟨"u", "c", false, ["l"], [⟨"l", 0, 0, true⟩]⟩ (by decide)
      ⟨"l", 0, 0, true⟩ (by decide) rfl⟩

end SkillSphere
